import Mathlib

/-!
# Stress-test scenario data: load and dump

A shallow embedding of `OREAnalytics/orea/scenario/stressscenariodata.cpp`
(`StressTestScenarioData::fromXML`, `StressTestScenarioData::toXML` and the
`dataToXML*` writers), followed by theorems about it.

* Documents are finite trees of element nodes (`XMLNode`).
* The text conversions of the document library (`parseReal`, `parsePeriod`,
  list decoding and formatting) are a parameter, `Codec`.
* Exceptions raised through `QL_REQUIRE` are values of `LoadError`;
  `fromXML` is a state transformer on the member `data_`.
* `std::map` is a key-sorted association list (`StdMap`) with the insertion
  `mapInsert`, which only uses the strict order of the keys.
-/

namespace StressScenario

/-! ## Documents -/

/-- An element node: its name, its attributes in document order, its text value and its child
elements in document order. -/
inductive XMLNode where
  | mk (name : String) (attributes : List (String × String)) (value : String)
      (children : List XMLNode)

namespace XMLNode

/-- The element name. -/
def name : XMLNode → String
  | mk n _ _ _ => n

/-- The attributes, in document order. -/
def attributes : XMLNode → List (String × String)
  | mk _ a _ _ => a

/-- The text value. -/
def value : XMLNode → String
  | mk _ _ v _ => v

/-- The child elements, in document order. -/
def children : XMLNode → List XMLNode
  | mk _ _ _ c => c

end XMLNode

/-- The failures of a load: one constructor for each `QL_REQUIRE` of `fromXML` and for each way
the document library refuses a request. The string of `sizeMismatch` and `emptySequence` is the
curve kind named in the message (`discount curve`, `index curve`, `yield curve`). -/
inductive LoadError where
  /-- Raised by `locateNode`: no node with that name. -/
  | nodeNotFound (name : String)
  /-- Raised by `checkNode`: the node has another name. -/
  | wrongNodeName (expected : String)
  /-- A request on a null node. -/
  | nullNode (request : String)
  /-- A mandatory child is absent. -/
  | missingChild (name : String)
  /-- A text that is not a number, a period or a list of them. -/
  | unparsable (text : String)
  /-- The message `number of tenors and shifts does not match in ... stress data`. -/
  | sizeMismatch (curveKind : String)
  /-- The message `no shifts provided in ... stress data`. -/
  | emptySequence (curveKind : String)
  /-- The message `expiry and term attributes required on shift size nodes`. -/
  | inconsistentGridKey
  deriving DecidableEq, Repr

deriving instance DecidableEq for Except

/-- The text conversions of the document library, over a type `R` of numbers and a type `P` of
periods. They are not part of `stressscenariodata.cpp` and are taken as a parameter. -/
structure Codec (R P : Type) where
  /-- The function `ore::data::parseReal`. -/
  parseReal : String → Option R
  /-- The function `ore::data::parsePeriod`. -/
  parsePeriod : String → Option P
  /-- The decoding of a node text by `XMLUtils::getChildValueAsDouble`. -/
  valueAsDouble : String → Option R
  /-- The decoding of a node text by `XMLUtils::getChildrenValuesAsDoublesCompact`. -/
  valuesAsDoublesCompact : String → Option (List R)
  /-- The decoding of a node text by `XMLUtils::getChildrenValuesAsPeriods`. -/
  valuesAsPeriods : String → Option (List P)
  /-- The text written by `XMLUtils::addChild` for a number. -/
  realText : R → String
  /-- The text written by `XMLUtils::addChild` for a vector of numbers. -/
  realsText : List R → String
  /-- The text written by `XMLUtils::addChild` for a vector of periods. -/
  periodsText : List P → String
  /-- The number `0.0`. -/
  zero : R
  /-- The comparison `operator<` of periods. -/
  periodLess : P → P → Bool

/-! ## The document library, as far as the loader and the writer use it -/

namespace XMLUtils

/-- Modelled from the spec: `XMLUtils::getChildNode` (ored/utilities/xmlutils is not among the
sources), the node lookup of the document library: the first child element with the given name,
`none` (a null pointer) when there is none. -/
def getChildNode (n : XMLNode) (name : String) : Option XMLNode :=
  n.children.find? (fun c => c.name == name)

/-- Modelled from the spec: the nodes visited by the loop
`for (c = getChildNode(n, name); c; c = getNextSibling(c))`: the first child called `name` and
then every following sibling, `getNextSibling` being called without a name. -/
def siblingsFrom (n : XMLNode) (name : String) : List XMLNode :=
  n.children.dropWhile (fun c => !(c.name == name))

/-- Modelled from the spec: `XMLUtils::getAttribute`, the attribute access of the document
library: the value of the first attribute with that name, the empty string when the node has
none (the loader tests the result against the empty string). -/
def getAttribute (n : XMLNode) (attrName : String) : String :=
  (n.attributes.lookup attrName).getD ""

/-- Modelled from the spec: `XMLUtils::getNodeValue`, the text of a node. -/
def getNodeValue (n : XMLNode) : String :=
  n.value

/-- Modelled from the spec: `XMLUtils::locateNode`: the node itself when it has the name,
otherwise its first child with the name; an error when there is none. -/
def locateNode (n : XMLNode) (name : String) : Except LoadError XMLNode :=
  if n.name = name then .ok n
  else
    match getChildNode n name with
    | some c => .ok c
    | none => .error (.nodeNotFound name)

/-- Modelled from the spec: `XMLUtils::checkNode`: an error unless the node has the name. -/
def checkNode (n : XMLNode) (expectedName : String) : Except LoadError Unit :=
  if n.name = expectedName then .ok () else .error (.wrongNodeName expectedName)

/-- Modelled from the spec: `XMLUtils::getChildValue`: the text of the first child with the
name; when there is none, an error if `mandatory` and the empty string otherwise. -/
def getChildValue (n : XMLNode) (name : String) (mandatory : Bool) : Except LoadError String :=
  match getChildNode n name with
  | some c => .ok (getNodeValue c)
  | none => if mandatory then .error (.missingChild name) else .ok ""

/-- Modelled from the spec: `XMLUtils::getChildValueAsDouble`: the child text, decoded. -/
def getChildValueAsDouble {R P : Type} (c : Codec R P) (n : XMLNode) (name : String)
    (mandatory : Bool) : Except LoadError R :=
  match getChildValue n name mandatory with
  | .error e => .error e
  | .ok s =>
    match c.valueAsDouble s with
    | some x => .ok x
    | none => .error (.unparsable s)

/-- Modelled from the spec: `XMLUtils::getChildrenValuesAsDoublesCompact`: the child text,
decoded as a sequence of numbers. -/
def getChildrenValuesAsDoublesCompact {R P : Type} (c : Codec R P) (n : XMLNode) (name : String)
    (mandatory : Bool) : Except LoadError (List R) :=
  match getChildValue n name mandatory with
  | .error e => .error e
  | .ok s =>
    match c.valuesAsDoublesCompact s with
    | some xs => .ok xs
    | none => .error (.unparsable s)

/-- Modelled from the spec: `XMLUtils::getChildrenValuesAsPeriods`: the child text, decoded as
a sequence of periods. -/
def getChildrenValuesAsPeriods {R P : Type} (c : Codec R P) (n : XMLNode) (name : String)
    (mandatory : Bool) : Except LoadError (List P) :=
  match getChildValue n name mandatory with
  | .error e => .error e
  | .ok s =>
    match c.valuesAsPeriods s with
    | some xs => .ok xs
    | none => .error (.unparsable s)

/-- Modelled from the spec: `XMLUtils::addChild(doc, n, name)` and its overloads with a value:
the node `n` with one more child, appended after the others. -/
def addChild (n : XMLNode) (child : XMLNode) : XMLNode :=
  .mk n.name n.attributes n.value (n.children ++ [child])

/-- Modelled from the spec: `XMLUtils::addAttribute`: the node with one more attribute. -/
def addAttribute (n : XMLNode) (attrName attrValue : String) : XMLNode :=
  .mk n.name (n.attributes ++ [(attrName, attrValue)]) n.value n.children

/-- A new element with a text value and no children, as `addChild(doc, n, name, value)` makes
it. -/
def textNode (name value : String) : XMLNode :=
  .mk name [] value []

end XMLUtils

/-- The text of a number, decoded by `ore::data::parseReal`. -/
def parseReal {R P : Type} (c : Codec R P) (s : String) : Except LoadError R :=
  match c.parseReal s with
  | some x => .ok x
  | none => .error (.unparsable s)

/-- The text of a period, decoded by `ore::data::parsePeriod`. -/
def parsePeriod {R P : Type} (c : Codec R P) (s : String) : Except LoadError P :=
  match c.parsePeriod s with
  | some x => .ok x
  | none => .error (.unparsable s)

/-! ## `std::map` -/

/-- A `std::map`: the entries in ascending key order. -/
abbrev StdMap (K V : Type) := List (K × V)

/-- The assignment `m[k] = v` of a `std::map` whose key comparison is `lt`: a key that is
neither below nor above `k` has its value replaced, otherwise the entry is put in at its
place. -/
def mapInsert {K V : Type} (lt : K → K → Bool) (k : K) (v : V) : StdMap K V → StdMap K V
  | [] => [(k, v)]
  | (k', v') :: rest =>
    if lt k k' then (k, v) :: (k', v') :: rest
    else if lt k' k then (k', v') :: mapInsert lt k v rest
    else (k', v) :: rest

/-- The comparison of two character sequences, character by character. -/
def charsLess : List Char → List Char → Bool
  | [], [] => false
  | [], _ :: _ => true
  | _ :: _, [] => false
  | a :: as, b :: bs =>
    if a.toNat < b.toNat then true
    else if b.toNat < a.toNat then false
    else charsLess as bs

/-- The comparison `operator<` of `std::string`. -/
def stringLess (a b : String) : Bool :=
  charsLess a.data b.data

/-- The comparison `operator<` of `std::pair`: lexicographic. -/
def pairLess {A : Type} (lt : A → A → Bool) (x y : A × A) : Bool :=
  lt x.1 y.1 || (!lt y.1 x.1 && lt x.2 y.2)

/-! ## The data model (orea/scenario/stressscenariodata.hpp, as the code uses it) -/

/-- The members of `CurveShiftData` the code reads and writes. -/
structure CurveShiftData (R P : Type) where
  shiftType : String
  shifts : List R
  shiftTenors : List P
  deriving DecidableEq, Repr

/-- The members of `SpotShiftData`. -/
structure SpotShiftData (R : Type) where
  shiftType : String
  shiftSize : R
  deriving DecidableEq, Repr

/-- The members of `VolShiftData`. -/
structure VolShiftData (R P : Type) where
  shiftType : String
  shifts : List R
  shiftExpiries : List P
  deriving DecidableEq, Repr

/-- The members of `CapFloorVolShiftData`: the code touches the same three as in
`VolShiftData`. -/
abbrev CapFloorVolShiftData (R P : Type) := VolShiftData R P

/-- The members of `SwaptionVolShiftData`. -/
structure SwaptionVolShiftData (R P : Type) where
  shiftType : String
  shiftTerms : List P
  shiftExpiries : List P
  parallelShiftSize : R
  shifts : StdMap (P × P) R
  deriving DecidableEq, Repr

/-- The members of `StressTestData`. -/
structure StressTestData (R P : Type) where
  label : String
  discountCurveShifts : StdMap String (CurveShiftData R P)
  indexCurveShifts : StdMap String (CurveShiftData R P)
  yieldCurveShifts : StdMap String (CurveShiftData R P)
  fxShifts : StdMap String (SpotShiftData R)
  fxVolShifts : StdMap String (VolShiftData R P)
  equityShifts : StdMap String (SpotShiftData R)
  equityVolShifts : StdMap String (VolShiftData R P)
  swaptionVolShifts : StdMap String (SwaptionVolShiftData R P)
  capVolShifts : StdMap String (CapFloorVolShiftData R P)
  securitySpreadShifts : StdMap String (SpotShiftData R)
  deriving DecidableEq, Repr

/-- A default-constructed `StressTestData` with its label set: `StressTestData test;
test.label = ...`. -/
def StressTestData.fresh (R P : Type) (label : String) : StressTestData R P :=
  { label := label, discountCurveShifts := [], indexCurveShifts := [], yieldCurveShifts := [],
    fxShifts := [], fxVolShifts := [], equityShifts := [], equityVolShifts := [],
    swaptionVolShifts := [], capVolShifts := [], securitySpreadShifts := [] }

/-! ## The loader: `StressTestScenarioData::fromXML` -/

section Loader

variable {R P : Type}

/-- The body shared by the `DiscountCurve`, `IndexCurve` and `YieldCurve` loops after the key
is read: the three reads and the two `QL_REQUIRE`s; `curveKind` is the kind named in the
messages. -/
def readCurveShiftData (c : Codec R P) (curveKind : String) (child : XMLNode) :
    Except LoadError (CurveShiftData R P) :=
  match XMLUtils.getChildValue child "ShiftType" true with
  | .error e => .error e
  | .ok shiftType =>
    match XMLUtils.getChildrenValuesAsDoublesCompact c child "Shifts" true with
    | .error e => .error e
    | .ok shifts =>
      match XMLUtils.getChildrenValuesAsPeriods c child "ShiftTenors" true with
      | .error e => .error e
      | .ok shiftTenors =>
        if shifts.length ≠ shiftTenors.length then .error (.sizeMismatch curveKind)
        else if ¬ (shifts.length > 0) then .error (.emptySequence curveKind)
        else .ok { shiftType := shiftType, shifts := shifts, shiftTenors := shiftTenors }

/-- The body of the `FxSpot`, `EquitySpot` and `SecuritySpread` loops. -/
def readSpotShiftData (c : Codec R P) (child : XMLNode) : Except LoadError (SpotShiftData R) :=
  match XMLUtils.getChildValue child "ShiftType" true with
  | .error e => .error e
  | .ok shiftType =>
    match XMLUtils.getChildValueAsDouble c child "ShiftSize" true with
    | .error e => .error e
    | .ok shiftSize => .ok { shiftType := shiftType, shiftSize := shiftSize }

/-- The body of the `FxVolatility` and `EquityVolatility` loops: `ShiftType` is not
mandatory, and nothing is required of the two sequences. -/
def readVolShiftData (c : Codec R P) (child : XMLNode) : Except LoadError (VolShiftData R P) :=
  match XMLUtils.getChildValue child "ShiftType" false with
  | .error e => .error e
  | .ok shiftType =>
    match XMLUtils.getChildrenValuesAsDoublesCompact c child "Shifts" true with
    | .error e => .error e
    | .ok shifts =>
      match XMLUtils.getChildrenValuesAsPeriods c child "ShiftExpiries" true with
      | .error e => .error e
      | .ok shiftExpiries =>
        .ok { shiftType := shiftType, shifts := shifts, shiftExpiries := shiftExpiries }

/-- The body of the `CapFloorVolatility` loop: `ShiftType` is mandatory and the expiries are
read before the shifts. -/
def readCapFloorVolShiftData (c : Codec R P) (child : XMLNode) :
    Except LoadError (CapFloorVolShiftData R P) :=
  match XMLUtils.getChildValue child "ShiftType" true with
  | .error e => .error e
  | .ok shiftType =>
    match XMLUtils.getChildrenValuesAsPeriods c child "ShiftExpiries" true with
    | .error e => .error e
    | .ok shiftExpiries =>
      match XMLUtils.getChildrenValuesAsDoublesCompact c child "Shifts" true with
      | .error e => .error e
      | .ok shifts =>
        .ok { shiftType := shiftType, shifts := shifts, shiftExpiries := shiftExpiries }

/-- One turn of the inner loop over the `Shift` nodes of a `SwaptionVolatility`. -/
def readSwaptionShift (c : Codec R P) (data : SwaptionVolShiftData R P) (child2 : XMLNode) :
    Except LoadError (SwaptionVolShiftData R P) :=
  let expiry := XMLUtils.getAttribute child2 "expiry"
  let term := XMLUtils.getAttribute child2 "term"
  if expiry = "" ∧ term = "" then
    match parseReal c (XMLUtils.getNodeValue child2) with
    | .error e => .error e
    | .ok v => .ok { data with parallelShiftSize := v }
  else if ¬ (expiry ≠ "" ∧ term ≠ "") then .error .inconsistentGridKey
  else
    match parsePeriod c expiry with
    | .error e => .error e
    | .ok e =>
      match parsePeriod c term with
      | .error e => .error e
      | .ok t =>
        match parseReal c (XMLUtils.getNodeValue child2) with
        | .error e => .error e
        | .ok value =>
          .ok { data with shifts := mapInsert (pairLess c.periodLess) (e, t) value data.shifts }

/-- The inner loop over the `Shift` nodes. -/
def readSwaptionShifts (c : Codec R P) :
    List XMLNode → SwaptionVolShiftData R P → Except LoadError (SwaptionVolShiftData R P)
  | [], data => .ok data
  | child2 :: rest, data =>
    match readSwaptionShift c data child2 with
    | .error e => .error e
    | .ok data1 => readSwaptionShifts c rest data1

/-- The body of the `SwaptionVolatility` loop. A `SwaptionVolatility` without a `Shifts` child
hands a null node to `getChildNode`, which the document library refuses. -/
def readSwaptionVolShiftData (c : Codec R P) (child : XMLNode) :
    Except LoadError (SwaptionVolShiftData R P) :=
  match XMLUtils.getChildValue child "ShiftType" true with
  | .error e => .error e
  | .ok shiftType =>
    match XMLUtils.getChildrenValuesAsPeriods c child "ShiftTerms" true with
    | .error e => .error e
    | .ok shiftTerms =>
      match XMLUtils.getChildrenValuesAsPeriods c child "ShiftExpiries" true with
      | .error e => .error e
      | .ok shiftExpiries =>
        match XMLUtils.getChildNode child "Shifts" with
        | none => .error (.nullNode "Shift")
        | some shiftSizes =>
          readSwaptionShifts c (XMLUtils.siblingsFrom shiftSizes "Shift")
            { shiftType := shiftType, shiftTerms := shiftTerms, shiftExpiries := shiftExpiries,
              parallelShiftSize := c.zero, shifts := [] }

/-- The loop over the shift nodes of one section: the key is the attribute `attr` of the node,
the data is read by `readData`, and `shifts[key] = data` stores it. -/
def loadShifts {D : Type} (attr : String) (readData : XMLNode → Except LoadError D) :
    List XMLNode → StdMap String D → Except LoadError (StdMap String D)
  | [], shifts => .ok shifts
  | child :: rest, shifts =>
    match readData child with
    | .error e => .error e
    | .ok data =>
      loadShifts attr readData rest
        (mapInsert stringLess (XMLUtils.getAttribute child attr) data shifts)

/-- One section of a test case. `test` is a fresh local of the loop body, so each of its maps
is empty until its section is read: without the section node it stays empty, with it the loop
runs from the empty map (after `clear()`, which `CapFloorVolatilities` leaves out). -/
def loadSection {D : Type} (testCase : XMLNode) (marketDataNames marketDataName attr : String)
    (readData : XMLNode → Except LoadError D) : Except LoadError (StdMap String D) :=
  match XMLUtils.getChildNode testCase marketDataNames with
  | none => .ok []
  | some sectionNode =>
    loadShifts attr readData (XMLUtils.siblingsFrom sectionNode marketDataName) []

/-- The body of the loop over the test cases, up to `data_.push_back(test)`: the label and the
ten sections in the order of the code. -/
def loadStressTest (c : Codec R P) (testCase : XMLNode) : Except LoadError (StressTestData R P) :=
  match loadSection testCase "DiscountCurves" "DiscountCurve" "ccy"
      (readCurveShiftData c "discount curve") with
  | .error e => .error e
  | .ok discountCurveShifts =>
  match loadSection testCase "IndexCurves" "IndexCurve" "index"
      (readCurveShiftData c "index curve") with
  | .error e => .error e
  | .ok indexCurveShifts =>
  match loadSection testCase "YieldCurves" "YieldCurve" "name"
      (readCurveShiftData c "yield curve") with
  | .error e => .error e
  | .ok yieldCurveShifts =>
  match loadSection testCase "FxSpots" "FxSpot" "ccypair" (readSpotShiftData c) with
  | .error e => .error e
  | .ok fxShifts =>
  match loadSection testCase "FxVolatilities" "FxVolatility" "ccypair" (readVolShiftData c) with
  | .error e => .error e
  | .ok fxVolShifts =>
  match loadSection testCase "EquitySpots" "EquitySpot" "equity" (readSpotShiftData c) with
  | .error e => .error e
  | .ok equityShifts =>
  match loadSection testCase "EquityVolatilities" "EquityVolatility" "equity"
      (readVolShiftData c) with
  | .error e => .error e
  | .ok equityVolShifts =>
  match loadSection testCase "SwaptionVolatilities" "SwaptionVolatility" "ccy"
      (readSwaptionVolShiftData c) with
  | .error e => .error e
  | .ok swaptionVolShifts =>
  match loadSection testCase "CapFloorVolatilities" "CapFloorVolatility" "ccy"
      (readCapFloorVolShiftData c) with
  | .error e => .error e
  | .ok capVolShifts =>
  match loadSection testCase "SecuritySpreads" "SecuritySpread" "security"
      (readSpotShiftData c) with
  | .error e => .error e
  | .ok securitySpreadShifts =>
    .ok { label := XMLUtils.getAttribute testCase "id",
          discountCurveShifts := discountCurveShifts,
          indexCurveShifts := indexCurveShifts,
          yieldCurveShifts := yieldCurveShifts,
          fxShifts := fxShifts,
          fxVolShifts := fxVolShifts,
          equityShifts := equityShifts,
          equityVolShifts := equityVolShifts,
          swaptionVolShifts := swaptionVolShifts,
          capVolShifts := capVolShifts,
          securitySpreadShifts := securitySpreadShifts }

/-- The loop over the test cases: `data_` grows by one case per node; an exception leaves the
loop with `data_` as it is at that moment. -/
def loadStressTests (c : Codec R P) :
    List XMLNode → List (StressTestData R P) → Except LoadError Unit × List (StressTestData R P)
  | [], data_ => (.ok (), data_)
  | testCase :: rest, data_ =>
    match loadStressTest c testCase with
    | .error e => (.error e, data_)
    | .ok test => loadStressTests c rest (data_ ++ [test])

/-- The member function `StressTestScenarioData::fromXML`: the outcome of the call (normal
return or the exception) and the member `data_` after it, from the document and `data_` before
the call. -/
def fromXML (c : Codec R P) (root : XMLNode) (_data : List (StressTestData R P)) :
    Except LoadError Unit × List (StressTestData R P) :=
  match XMLUtils.locateNode root "StressTesting" with
  | .error e => (.error e, [])
  | .ok node =>
    match XMLUtils.checkNode node "StressTesting" with
    | .error e => (.error e, [])
    | .ok _ => loadStressTests c (XMLUtils.siblingsFrom node "StressTest") []

end Loader

/-! ## The writer: `StressTestScenarioData::toXML` -/

section Writer

variable {R P : Type}

/-- The template `dataToXMLCurve`: `node` with a new section `marketDataNames` holding one
`marketDataName` per entry of the map, in key order. -/
def dataToXMLCurve (c : Codec R P) (node : XMLNode)
    (shiftDictionary : StdMap String (CurveShiftData R P))
    (identifierAttribute marketDataNames marketDataName : String) : XMLNode :=
  XMLUtils.addChild node
    (.mk marketDataNames [] ""
      (shiftDictionary.map fun entry =>
        .mk marketDataName [(identifierAttribute, entry.1)] ""
          [XMLUtils.textNode "ShiftType" entry.2.shiftType,
           XMLUtils.textNode "Shifts" (c.realsText entry.2.shifts),
           XMLUtils.textNode "ShiftTenors" (c.periodsText entry.2.shiftTenors)]))

/-- The template `dataToXMLVol`. -/
def dataToXMLVol (c : Codec R P) (node : XMLNode)
    (shiftDictionary : StdMap String (VolShiftData R P))
    (identifierAttribute marketDataNames marketDataName : String) : XMLNode :=
  XMLUtils.addChild node
    (.mk marketDataNames [] ""
      (shiftDictionary.map fun entry =>
        .mk marketDataName [(identifierAttribute, entry.1)] ""
          [XMLUtils.textNode "ShiftType" entry.2.shiftType,
           XMLUtils.textNode "Shifts" (c.realsText entry.2.shifts),
           XMLUtils.textNode "ShiftExpiries" (c.periodsText entry.2.shiftExpiries)]))

/-- The template `dataToXMLSpot`. -/
def dataToXMLSpot (c : Codec R P) (node : XMLNode)
    (shiftDictionary : StdMap String (SpotShiftData R))
    (identifierAttribute marketDataNames marketDataName : String) : XMLNode :=
  XMLUtils.addChild node
    (.mk marketDataNames [] ""
      (shiftDictionary.map fun entry =>
        .mk marketDataName [(identifierAttribute, entry.1)] ""
          [XMLUtils.textNode "ShiftType" entry.2.shiftType,
           XMLUtils.textNode "ShiftSize" (c.realText entry.2.shiftSize)]))

/-- The `StressTest` node written for one case: the `id` attribute and the nine calls of the
writers, in the order of the code (`IndexCurves` is written with the attribute `ccy`; there is
no call for the swaption volatilities). -/
def stressTestToXML (c : Codec R P) (test : StressTestData R P) : XMLNode :=
  let aStressTest := XMLUtils.addAttribute (.mk "StressTest" [] "" []) "id" test.label
  let n1 := dataToXMLCurve c aStressTest test.discountCurveShifts "ccy" "DiscountCurves"
    "DiscountCurve"
  let n2 := dataToXMLCurve c n1 test.indexCurveShifts "ccy" "IndexCurves" "IndexCurve"
  let n3 := dataToXMLCurve c n2 test.yieldCurveShifts "name" "YieldCurves" "YieldCurve"
  let n4 := dataToXMLSpot c n3 test.fxShifts "ccypair" "FxSpots" "FxSpot"
  let n5 := dataToXMLVol c n4 test.fxVolShifts "ccypair" "FxVolatilities" "FxVolatility"
  let n6 := dataToXMLSpot c n5 test.equityShifts "equity" "EquitySpots" "EquitySpot"
  let n7 := dataToXMLVol c n6 test.equityVolShifts "equity" "EquityVolatilities"
    "EquityVolatility"
  let n8 := dataToXMLSpot c n7 test.securitySpreadShifts "security" "SecuritySpreads"
    "SecuritySpread"
  dataToXMLVol c n8 test.capVolShifts "ccy" "CapFloorVolatilities" "CapFloorVolatility"

/-- The member function `StressTestScenarioData::toXML`: the node `StressTesting` with one
`StressTest` child per case of `data_`, in order. -/
def toXML (c : Codec R P) (data_ : List (StressTestData R P)) : XMLNode :=
  .mk "StressTesting" [] "" (data_.map (stressTestToXML c))

end Writer

/-! ## A concrete text codec -/

/-- The pieces of a character sequence between commas; `cur` holds the piece being read, in
reverse. -/
def splitCommaAux : List Char → List Char → List (List Char)
  | [], cur => [cur.reverse]
  | ch :: rest, cur =>
    if ch = ',' then cur.reverse :: splitCommaAux rest [] else splitCommaAux rest (ch :: cur)

/-- The tokens of a comma-separated text: none for the empty text, and no decoding when a token
is empty. -/
def tokens (s : String) : Option (List String) :=
  if s = "" then some []
  else
    let parts := (splitCommaAux s.data []).map String.mk
    if parts.all (fun t => t != "") then some parts else none

/-- A single non-empty token without a comma. -/
def token (s : String) : Option String :=
  if s = "" ∨ s.data.contains ',' then none else some s

/-- A codec in which a number and a period are their tokens: lists are written
comma-separated, the number zero is the token `0`, and periods are compared as strings. -/
def tokenCodec : Codec String String where
  parseReal := token
  parsePeriod := token
  valueAsDouble := token
  valuesAsDoublesCompact := tokens
  valuesAsPeriods := tokens
  realText := fun x => x
  realsText := fun xs => String.intercalate "," xs
  periodsText := fun xs => String.intercalate "," xs
  zero := "0"
  periodLess := stringLess

/-! ## Vocabulary of the statements -/

/-- A strict total order, as `std::map` requires of its key comparison. -/
structure StrictTotal {K : Type} (lt : K → K → Bool) : Prop where
  irrefl : ∀ a, lt a a = false
  trans : ∀ a b c, lt a b = true → lt b c = true → lt a c = true
  total : ∀ a b, lt a b = false → lt b a = false → a = b

/-- The representation invariant of a `std::map`: the keys ascend strictly. -/
def KeysAscending {K V : Type} (lt : K → K → Bool) (m : StdMap K V) : Prop :=
  m.Pairwise (fun a b => lt a.1 b.1 = true)

/-- The nodes the outer loop of `fromXML` visits: the first `StressTest` child of the
`StressTesting` node and every sibling after it; none when there is no `StressTesting` node. -/
def testCaseNodes (root : XMLNode) : List XMLNode :=
  match XMLUtils.locateNode root "StressTesting" with
  | .error _ => []
  | .ok node => XMLUtils.siblingsFrom node "StressTest"

/-- The nodes the loop of one section visits in a test case: the first `marketDataName` child
of the first `marketDataNames` child and every sibling after it. Every `marketDataName` child
of that section node is among them. -/
def sectionNodes (testCase : XMLNode) (marketDataNames marketDataName : String) : List XMLNode :=
  match XMLUtils.getChildNode testCase marketDataNames with
  | none => []
  | some sectionNode => XMLUtils.siblingsFrom sectionNode marketDataName

/-- The three curve sections of `fromXML`: the section node, the shift node, the identifying
attribute and the curve kind named in the messages of the two `QL_REQUIRE`s. -/
def curveSections : List (String × String × String × String) :=
  [("DiscountCurves", "DiscountCurve", "ccy", "discount curve"),
   ("IndexCurves", "IndexCurve", "index", "index curve"),
   ("YieldCurves", "YieldCurve", "name", "yield curve")]

/-! ## Concrete documents and collections -/

/-- An element without text. -/
def elem (name : String) (attributes : List (String × String)) (children : List XMLNode) :
    XMLNode :=
  .mk name attributes "" children

/-- A test case with one index curve shift and one swaption volatility shift. -/
def mixedCase : StressTestData String String :=
  { StressTestData.fresh String String "s1" with
    indexCurveShifts := [("EUR-EURIBOR-6M", ⟨"Absolute", ["0.01"], ["1Y"]⟩)]
    swaptionVolShifts := [("EUR", ⟨"Relative", ["5Y"], ["1Y"], "0.001", [(("1Y", "5Y"), "0.002")]⟩)] }

/-- What loading the dump of `mixedCase` gives: the index curve shift under the empty key and
no swaption volatility shift. -/
def mixedCaseReloaded : StressTestData String String :=
  { StressTestData.fresh String String "s1" with
    indexCurveShifts := [("", ⟨"Absolute", ["0.01"], ["1Y"]⟩)] }

/-- A `DiscountCurve` node with three shifts and two tenors. -/
def mismatchNode : XMLNode :=
  elem "DiscountCurve" [("ccy", "EUR")]
    [XMLUtils.textNode "ShiftType" "Absolute", XMLUtils.textNode "Shifts" "0.1,0.2,0.3",
     XMLUtils.textNode "ShiftTenors" "1Y,2Y"]

/-- A test case holding `mismatchNode`. -/
def mismatchCase : XMLNode :=
  elem "StressTest" [("id", "bad")] [elem "DiscountCurves" [] [mismatchNode]]

/-- A document holding `mismatchCase`. -/
def mismatchDoc : XMLNode :=
  elem "StressTesting" [] [mismatchCase]

/-- The curve shift of the scenario `parallel_up`. -/
def parallelUpSpec : CurveShiftData String String :=
  ⟨"Absolute", ["0.0001"], ["1Y"]⟩

/-- The `DiscountCurve` node of the scenario `parallel_up`. -/
def parallelUpNode : XMLNode :=
  elem "DiscountCurve" [("ccy", "USD")]
    [XMLUtils.textNode "ShiftType" "Absolute", XMLUtils.textNode "Shifts" "0.0001",
     XMLUtils.textNode "ShiftTenors" "1Y"]

/-- The `StressTest` node of the scenario `parallel_up`. -/
def parallelUpCaseNode : XMLNode :=
  elem "StressTest" [("id", "parallel_up")] [elem "DiscountCurves" [] [parallelUpNode]]

/-- The document of the scenario `parallel_up`. -/
def parallelUpDoc : XMLNode :=
  elem "StressTesting" [] [parallelUpCaseNode]

/-- The test case the scenario `parallel_up` loads to. -/
def parallelUpCase : StressTestData String String :=
  { StressTestData.fresh String String "parallel_up" with
    discountCurveShifts := [("USD", parallelUpSpec)] }

/-- A `Shift` node with an `expiry` and no `term`. -/
def loneExpiryShift : XMLNode :=
  .mk "Shift" [("expiry", "1Y")] "0.002" []

/-- The `Shifts` node holding a bare value and then `loneExpiryShift`. -/
def loneExpiryShifts : XMLNode :=
  elem "Shifts" [] [XMLUtils.textNode "Shift" "0.001", loneExpiryShift]

/-- A `SwaptionVolatility` node whose `Shifts` are `loneExpiryShifts`. -/
def loneExpiryNode : XMLNode :=
  elem "SwaptionVolatility" [("ccy", "EUR")]
    [XMLUtils.textNode "ShiftType" "Absolute", XMLUtils.textNode "ShiftTerms" "5Y,10Y",
     XMLUtils.textNode "ShiftExpiries" "1Y,2Y", loneExpiryShifts]

/-- A test case holding `loneExpiryNode`. -/
def loneExpiryCase : XMLNode :=
  elem "StressTest" [("id", "s")] [elem "SwaptionVolatilities" [] [loneExpiryNode]]

/-- A document holding `loneExpiryCase`. -/
def loneExpiryDoc : XMLNode :=
  elem "StressTesting" [] [loneExpiryCase]

/-! ## The swaption volatility cube, in the words of the specification -/

section SwaptionSpec

variable {R P : Type}

/-- A well-formed shift value node: without `expiry` and `term` and with a number as its text,
or with both attributes, each a period, and a number as its text. -/
def WellFormedShift (c : Codec R P) (n : XMLNode) : Prop :=
  (XMLUtils.getAttribute n "expiry" = "" ∧ XMLUtils.getAttribute n "term" = "" ∧
      (c.parseReal (XMLUtils.getNodeValue n)).isSome) ∨
    (XMLUtils.getAttribute n "expiry" ≠ "" ∧ XMLUtils.getAttribute n "term" ≠ "" ∧
      (c.parsePeriod (XMLUtils.getAttribute n "expiry")).isSome ∧
      (c.parsePeriod (XMLUtils.getAttribute n "term")).isSome ∧
      (c.parseReal (XMLUtils.getNodeValue n)).isSome)

/-- The value of a shift value node that has neither an `expiry` nor a `term`. -/
def bareShiftValue (c : Codec R P) (n : XMLNode) : Option R :=
  if XMLUtils.getAttribute n "expiry" = "" ∧ XMLUtils.getAttribute n "term" = "" then
    c.parseReal (XMLUtils.getNodeValue n)
  else none

/-- The grid entry of a shift value node that has both an `expiry` and a `term`: the pair of
periods and the value. -/
def gridShiftEntry (c : Codec R P) (n : XMLNode) : Option ((P × P) × R) :=
  if XMLUtils.getAttribute n "expiry" ≠ "" ∧ XMLUtils.getAttribute n "term" ≠ "" then
    match c.parsePeriod (XMLUtils.getAttribute n "expiry"),
      c.parsePeriod (XMLUtils.getAttribute n "term"), c.parseReal (XMLUtils.getNodeValue n) with
    | some e, some t, some v => some ((e, t), v)
    | _, _, _ => none
  else none

/-- The parallel shift the specification gives a cube: the value of the last shift value node
that has neither attribute, `0.0` when there is none. -/
def specParallelShift (c : Codec R P) (shiftNodes : List XMLNode) : R :=
  ((shiftNodes.filterMap (bareShiftValue c)).getLast?).getD c.zero

/-- The grid shift the specification gives a cube at a pair of periods: the value of the last
shift value node carrying that pair, nothing when there is none. -/
def specGridShift [DecidableEq P] (c : Codec R P) (shiftNodes : List XMLNode) (key : P × P) :
    Option R :=
  (((shiftNodes.filterMap (gridShiftEntry c)).filter (fun x => x.1 = key)).getLast?).map Prod.snd

end SwaptionSpec

/-- The `Shifts` node of the swaption scenario: one bare value and one grid value. -/
def cubeShifts : XMLNode :=
  elem "Shifts" []
    [XMLUtils.textNode "Shift" "0.001", .mk "Shift" [("expiry", "1Y"), ("term", "5Y")] "0.002" []]

/-- The `SwaptionVolatility` node of the swaption scenario. -/
def cubeNode : XMLNode :=
  elem "SwaptionVolatility" [("ccy", "EUR")]
    [XMLUtils.textNode "ShiftType" "Absolute", XMLUtils.textNode "ShiftTerms" "5Y,10Y",
     XMLUtils.textNode "ShiftExpiries" "1Y,2Y", cubeShifts]

/-- The cube the swaption scenario loads to. -/
def cubeData : SwaptionVolShiftData String String :=
  { shiftType := "Absolute", shiftTerms := ["5Y", "10Y"], shiftExpiries := ["1Y", "2Y"],
    parallelShiftSize := "0.001", shifts := [(("1Y", "5Y"), "0.002")] }

/-! ## Last wins, in the words of the specification -/

/-- The last node among `nodes` whose identifying attribute `attr` has the value `k`. -/
def lastWithKey (attr : String) (nodes : List XMLNode) (k : String) : Option XMLNode :=
  (nodes.filter (fun n => XMLUtils.getAttribute n attr = k)).getLast?

/-- Last wins: the map has one entry at most for a key, and the entry of a key is the data of
the last node carrying that key; a key that no node carries has none. -/
def LastWins {D : Type} (attr : String) (readData : XMLNode → Except LoadError D)
    (nodes : List XMLNode) (m : StdMap String D) : Prop :=
  (m.map Prod.fst).Nodup ∧
    ∀ k, m.lookup k =
      match lastWithKey attr nodes k with
      | some n => (readData n).toOption
      | none => none

/-- A second `DiscountCurve` node for the currency of `parallelUpNode`. -/
def secondUsdNode : XMLNode :=
  elem "DiscountCurve" [("ccy", "USD")]
    [XMLUtils.textNode "ShiftType" "Relative", XMLUtils.textNode "Shifts" "0.5,0.6",
     XMLUtils.textNode "ShiftTenors" "2Y,3Y"]

/-- A test case with two `DiscountCurve` nodes for the same currency. -/
def duplicateCaseNode : XMLNode :=
  elem "StressTest" [("id", "dup")] [elem "DiscountCurves" [] [parallelUpNode, secondUsdNode]]

/-- The test case `duplicateCaseNode` loads to: the data of the second node only. -/
def duplicateCase : StressTestData String String :=
  { StressTestData.fresh String String "dup" with
    discountCurveShifts := [("USD", ⟨"Relative", ["0.5", "0.6"], ["2Y", "3Y"]⟩)] }

/-- A document whose first test case is well-formed and whose second has a size mismatch. -/
def secondBadDoc : XMLNode :=
  elem "StressTesting" [] [parallelUpCaseNode, mismatchCase]

/-- A document with a `StressTest` node followed by a node of another name. -/
def strayDoc : XMLNode :=
  elem "StressTesting" [] [parallelUpCaseNode, elem "Comment" [] []]

/-- A document with a `SwaptionVolatility` node whose two axes are empty. -/
def emptyAxesDoc : XMLNode :=
  elem "StressTesting" []
    [elem "StressTest" [("id", "s")]
      [elem "SwaptionVolatilities" []
        [elem "SwaptionVolatility" [("ccy", "EUR")]
          [XMLUtils.textNode "ShiftType" "Absolute", XMLUtils.textNode "ShiftTerms" "",
           XMLUtils.textNode "ShiftExpiries" "",
           elem "Shifts" [] [XMLUtils.textNode "Shift" "0.001"]]]]]

/-- The test case `emptyAxesDoc` loads to. -/
def emptyAxesCase : StressTestData String String :=
  { StressTestData.fresh String String "s" with
    swaptionVolShifts := [("EUR", ⟨"Absolute", [], [], "0.001", []⟩)] }

/-- A `FxVolatility` node with three shifts and two expiries. -/
def unevenVolNode : XMLNode :=
  elem "FxVolatility" [("ccypair", "EURUSD")]
    [XMLUtils.textNode "ShiftType" "Absolute", XMLUtils.textNode "Shifts" "0.1,0.2,0.3",
     XMLUtils.textNode "ShiftExpiries" "1Y,2Y"]

/-- A document holding `unevenVolNode`. -/
def unevenVolDoc : XMLNode :=
  elem "StressTesting" []
    [elem "StressTest" [("id", "s")] [elem "FxVolatilities" [] [unevenVolNode]]]

/-- The test case `unevenVolDoc` loads to. -/
def unevenVolCase : StressTestData String String :=
  { StressTestData.fresh String String "s" with
    fxVolShifts := [("EURUSD", ⟨"Absolute", ["0.1", "0.2", "0.3"], ["1Y", "2Y"]⟩)] }

/-- A `DiscountCurve` node without the attribute `ccy`. -/
def anonymousNode : XMLNode :=
  elem "DiscountCurve" []
    [XMLUtils.textNode "ShiftType" "Absolute", XMLUtils.textNode "Shifts" "0.0001",
     XMLUtils.textNode "ShiftTenors" "1Y"]

/-- A test case holding `anonymousNode`. -/
def anonymousCaseNode : XMLNode :=
  elem "StressTest" [("id", "s")] [elem "DiscountCurves" [] [anonymousNode]]

/-- A document holding `anonymousCaseNode`. -/
def anonymousDoc : XMLNode :=
  elem "StressTesting" [] [anonymousCaseNode]

/-- The test case `anonymousDoc` loads to: the curve shift under the empty key. -/
def anonymousCase : StressTestData String String :=
  { StressTestData.fresh String String "s" with discountCurveShifts := [("", parallelUpSpec)] }

/-- A `FxSpot` node whose `ShiftType` is neither `Absolute` nor `Relative`. -/
def bogusTypeNode : XMLNode :=
  elem "FxSpot" [("ccypair", "EURUSD")]
    [XMLUtils.textNode "ShiftType" "Bogus", XMLUtils.textNode "ShiftSize" "0.01"]

/-- A document holding `bogusTypeNode`. -/
def bogusTypeDoc : XMLNode :=
  elem "StressTesting" []
    [elem "StressTest" [("id", "s")] [elem "FxSpots" [] [bogusTypeNode]]]

/-- The test case `bogusTypeDoc` loads to. -/
def bogusTypeCase : StressTestData String String :=
  { StressTestData.fresh String String "s" with fxShifts := [("EURUSD", ⟨"Bogus", "0.01"⟩)] }

/-- The ten sections of `fromXML`: the section node and the shift node. -/
def sectionTable : List (String × String) :=
  [("DiscountCurves", "DiscountCurve"), ("IndexCurves", "IndexCurve"),
   ("YieldCurves", "YieldCurve"), ("FxSpots", "FxSpot"), ("FxVolatilities", "FxVolatility"),
   ("EquitySpots", "EquitySpot"), ("EquityVolatilities", "EquityVolatility"),
   ("SwaptionVolatilities", "SwaptionVolatility"),
   ("CapFloorVolatilities", "CapFloorVolatility"), ("SecuritySpreads", "SecuritySpread")]

/-- A test case with one index curve shift. -/
def indexCase : StressTestData String String :=
  { StressTestData.fresh String String "s1" with
    indexCurveShifts := [("EUR-EURIBOR-6M", ⟨"Absolute", ["0.01"], ["1Y"]⟩)] }

/-- A test case with one swaption volatility shift. -/
def swaptionCase : StressTestData String String :=
  { StressTestData.fresh String String "s1" with
    swaptionVolShifts := [("EUR", cubeData)] }

/-! ## The collections of the restricted round trip -/

section RoundTripVocabulary

variable {R P : Type}

/-- A curve shift that the writer and the loader agree on: the texts written for its two
sequences decode to them, and it has as many shifts as tenors, and at least one. -/
abbrev CurveShiftData.Dumpable (c : Codec R P) (x : CurveShiftData R P) : Prop :=
  c.valuesAsDoublesCompact (c.realsText x.shifts) = some x.shifts ∧
    c.valuesAsPeriods (c.periodsText x.shiftTenors) = some x.shiftTenors ∧
    x.shifts.length = x.shiftTenors.length ∧ 0 < x.shifts.length

/-- A volatility shift whose two sequences decode from the texts written for them; nothing is
asked of their lengths or of the shift type. -/
abbrev VolShiftData.Dumpable (c : Codec R P) (x : VolShiftData R P) : Prop :=
  c.valuesAsDoublesCompact (c.realsText x.shifts) = some x.shifts ∧
    c.valuesAsPeriods (c.periodsText x.shiftExpiries) = some x.shiftExpiries

/-- A spot shift whose size decodes from the text written for it. -/
abbrev SpotShiftData.Dumpable (c : Codec R P) (x : SpotShiftData R) : Prop :=
  c.valueAsDouble (c.realText x.shiftSize) = some x.shiftSize

/-- A case of the restricted round trip: no index curve shift and no swaption volatility shift;
each other map is a `std::map` (its keys ascend) whose entries decode from the texts written for
them, the curve shifts having as many shifts as tenors and at least one. -/
abbrev RestrictedCase (c : Codec R P) (t : StressTestData R P) : Prop :=
  t.indexCurveShifts = [] ∧ t.swaptionVolShifts = [] ∧
    (KeysAscending stringLess t.discountCurveShifts ∧
      ∀ e ∈ t.discountCurveShifts, e.2.Dumpable c) ∧
    (KeysAscending stringLess t.yieldCurveShifts ∧ ∀ e ∈ t.yieldCurveShifts, e.2.Dumpable c) ∧
    (KeysAscending stringLess t.fxShifts ∧ ∀ e ∈ t.fxShifts, e.2.Dumpable c) ∧
    (KeysAscending stringLess t.fxVolShifts ∧ ∀ e ∈ t.fxVolShifts, e.2.Dumpable c) ∧
    (KeysAscending stringLess t.equityShifts ∧ ∀ e ∈ t.equityShifts, e.2.Dumpable c) ∧
    (KeysAscending stringLess t.equityVolShifts ∧ ∀ e ∈ t.equityVolShifts, e.2.Dumpable c) ∧
    (KeysAscending stringLess t.capVolShifts ∧
      ∀ e ∈ t.capVolShifts, VolShiftData.Dumpable c e.2) ∧
    (KeysAscending stringLess t.securitySpreadShifts ∧
      ∀ e ∈ t.securitySpreadShifts, e.2.Dumpable c)

end RoundTripVocabulary

/-- A case of the restricted round trip: two discount curve shifts, a spot shift, and volatility
shifts with an empty shift type, with sequences of unequal length and with empty sequences. -/
def restrictedCase : StressTestData String String :=
  { StressTestData.fresh String String "mixed" with
    discountCurveShifts :=
      [("EUR", ⟨"Absolute", ["0.01", "0.02"], ["1Y", "2Y"]⟩), ("USD", parallelUpSpec)]
    fxShifts := [("EURUSD", ⟨"Relative", "0.1"⟩)]
    fxVolShifts := [("EURUSD", ⟨"", ["0.1", "0.2", "0.3"], ["1Y", "2Y"]⟩)]
    equityVolShifts := [("SP5", ⟨"", [], []⟩)]
    capVolShifts := [("EUR", ⟨"Absolute", [], ["1Y"]⟩)] }

/-- The representation invariant can be checked on a concrete map. -/
instance instDecidableKeysAscending {K V : Type} (lt : K → K → Bool) (m : StdMap K V) :
    Decidable (KeysAscending lt m) :=
  inferInstanceAs (Decidable (List.Pairwise (fun a b : K × V => lt a.1 b.1 = true) m))

/-! ## The first defect of a document -/

section FirstDefectVocabulary

variable {R P : Type}

/-- The curve sections that `fromXML` reads before the curve section `sec` all load in the
test case. -/
def CurveSectionsBeforeLoad (c : Codec R P) (testCase : XMLNode)
    (sec : String × String × String × String) : Prop :=
  ∀ s ∈ curveSections.takeWhile (fun s => s != sec),
    ∃ m, loadSection testCase s.1 s.2.1 s.2.2.1 (readCurveShiftData c s.2.2.2) = .ok m

/-- The seven sections that `fromXML` reads before the swaption volatilities all load in the
test case. -/
def SectionsBeforeSwaptionLoad (c : Codec R P) (testCase : XMLNode) : Prop :=
  (∃ m, loadSection testCase "DiscountCurves" "DiscountCurve" "ccy"
      (readCurveShiftData c "discount curve") = .ok m) ∧
    (∃ m, loadSection testCase "IndexCurves" "IndexCurve" "index"
      (readCurveShiftData c "index curve") = .ok m) ∧
    (∃ m, loadSection testCase "YieldCurves" "YieldCurve" "name"
      (readCurveShiftData c "yield curve") = .ok m) ∧
    (∃ m, loadSection testCase "FxSpots" "FxSpot" "ccypair" (readSpotShiftData c) = .ok m) ∧
    (∃ m, loadSection testCase "FxVolatilities" "FxVolatility" "ccypair"
      (readVolShiftData c) = .ok m) ∧
    (∃ m, loadSection testCase "EquitySpots" "EquitySpot" "equity"
      (readSpotShiftData c) = .ok m) ∧
    (∃ m, loadSection testCase "EquityVolatilities" "EquityVolatility" "equity"
      (readVolShiftData c) = .ok m)

end FirstDefectVocabulary

/-- A `DiscountCurve` node with no shift and no tenor. -/
def emptyCurveNode : XMLNode :=
  elem "DiscountCurve" [("ccy", "USD")]
    [XMLUtils.textNode "ShiftType" "Absolute", XMLUtils.textNode "Shifts" "",
     XMLUtils.textNode "ShiftTenors" ""]

/-- A test case in which `mismatchNode` comes after `emptyCurveNode`. -/
def earlierDefectCase : XMLNode :=
  elem "StressTest" [("id", "s")] [elem "DiscountCurves" [] [emptyCurveNode, mismatchNode]]

/-- A document holding `earlierDefectCase`. -/
def earlierDefectDoc : XMLNode :=
  elem "StressTesting" [] [earlierDefectCase]

/-- A document in which `mismatchNode` sits in a second `DiscountCurves` section of its test
case. -/
def secondSectionDoc : XMLNode :=
  elem "StressTesting" []
    [elem "StressTest" [("id", "parallel_up")]
      [elem "DiscountCurves" [] [parallelUpNode], elem "DiscountCurves" [] [mismatchNode]]]

/-- A well-formed `YieldCurve` node. -/
def yieldNode : XMLNode :=
  elem "YieldCurve" [("name", "BENCHMARK")]
    [XMLUtils.textNode "ShiftType" "Absolute", XMLUtils.textNode "Shifts" "0.0001",
     XMLUtils.textNode "ShiftTenors" "1Y"]

/-- A `YieldCurve` node with three shifts and two tenors. -/
def yieldMismatchNode : XMLNode :=
  elem "YieldCurve" [("name", "OTHER")]
    [XMLUtils.textNode "ShiftType" "Absolute", XMLUtils.textNode "Shifts" "0.1,0.2,0.3",
     XMLUtils.textNode "ShiftTenors" "1Y,2Y"]

/-- A test case with a well-formed `DiscountCurves` section and `yieldMismatchNode` as the
second node of its `YieldCurves` section. -/
def lateMismatchCase : XMLNode :=
  elem "StressTest" [("id", "late")]
    [elem "DiscountCurves" [] [parallelUpNode],
     elem "YieldCurves" [] [yieldNode, yieldMismatchNode]]

/-- A document whose first test case loads and whose second is `lateMismatchCase`. -/
def lateMismatchDoc : XMLNode :=
  elem "StressTesting" [] [parallelUpCaseNode, lateMismatchCase]

/-- A `SwaptionVolatility` node in which `loneExpiryShift` comes after a `Shift` node whose
text is not a number. -/
def unparsableFirstNode : XMLNode :=
  elem "SwaptionVolatility" [("ccy", "EUR")]
    [XMLUtils.textNode "ShiftType" "Absolute", XMLUtils.textNode "ShiftTerms" "5Y,10Y",
     XMLUtils.textNode "ShiftExpiries" "1Y,2Y",
     elem "Shifts" [] [XMLUtils.textNode "Shift" "", loneExpiryShift]]

/-- A document holding `unparsableFirstNode`. -/
def unparsableFirstDoc : XMLNode :=
  elem "StressTesting" []
    [elem "StressTest" [("id", "s")] [elem "SwaptionVolatilities" [] [unparsableFirstNode]]]

/-- A document in which `loneExpiryShift` sits in a second `Shifts` child of its
`SwaptionVolatility` node. -/
def secondShiftsDoc : XMLNode :=
  elem "StressTesting" []
    [elem "StressTest" [("id", "s")]
      [elem "SwaptionVolatilities" []
        [elem "SwaptionVolatility" [("ccy", "EUR")]
          [XMLUtils.textNode "ShiftType" "Absolute", XMLUtils.textNode "ShiftTerms" "5Y,10Y",
           XMLUtils.textNode "ShiftExpiries" "1Y,2Y",
           elem "Shifts" [] [XMLUtils.textNode "Shift" "0.001"],
           elem "Shifts" [] [loneExpiryShift]]]]]

/-! ## Properties of the key orders and of `mapInsert` -/

theorem char_eq_of_toNat_eq (a b : Char) (h : a.toNat = b.toNat) : a = b := by
  have ha := Char.ofNat_toNat a
  have hb := Char.ofNat_toNat b
  rw [h] at ha
  rw [← ha, hb]

theorem charsLess_irrefl : ∀ a : List Char, charsLess a a = false
  | [] => rfl
  | a :: as => by
    simp [charsLess, charsLess_irrefl as]

theorem charsLess_trans : ∀ a b c : List Char,
    charsLess a b = true → charsLess b c = true → charsLess a c = true
  | [], [], _, h, _ => by simp [charsLess] at h
  | [], _ :: _, [], _, h => by simp [charsLess] at h
  | [], _ :: _, _ :: _, _, _ => by simp [charsLess]
  | _ :: _, [], _, h, _ => by simp [charsLess] at h
  | _ :: _, _ :: _, [], _, h => by simp [charsLess] at h
  | a :: as, b :: bs, c :: cs, h1, h2 => by
    simp only [charsLess] at h1 h2 ⊢
    split at h1
    · split at h2
      · have : a.toNat < c.toNat := by omega
        simp [this]
      · split at h2
        · simp at h2
        · have : a.toNat < c.toNat := by omega
          simp [this]
    · split at h1
      · simp at h1
      · split at h2
        · have : a.toNat < c.toNat := by omega
          simp [this]
        · split at h2
          · simp at h2
          · have h3 : ¬ a.toNat < c.toNat := by omega
            have h4 : ¬ c.toNat < a.toNat := by omega
            simp only [h3, h4, if_false]
            exact charsLess_trans as bs cs h1 h2

theorem charsLess_total : ∀ a b : List Char,
    charsLess a b = false → charsLess b a = false → a = b
  | [], [], _, _ => rfl
  | [], _ :: _, h, _ => by simp [charsLess] at h
  | _ :: _, [], _, h => by simp [charsLess] at h
  | a :: as, b :: bs, h1, h2 => by
    simp only [charsLess] at h1 h2
    split at h1
    · simp at h1
    · split at h1
      · rename_i h3 h4
        simp [h4] at h2
      · rename_i h3 h4
        simp only [h3, h4, if_false] at h2
        have hab : a = b := char_eq_of_toNat_eq a b (by omega)
        rw [hab, charsLess_total as bs h1 h2]

theorem stringLess_strictTotal : StrictTotal stringLess where
  irrefl := fun a => charsLess_irrefl a.data
  trans := fun a b c => charsLess_trans a.data b.data c.data
  total := fun a b h1 h2 => String.ext (charsLess_total a.data b.data h1 h2)

theorem pairLess_strictTotal {A : Type} {lt : A → A → Bool} (h : StrictTotal lt) :
    StrictTotal (pairLess lt) where
  irrefl := fun a => by simp [pairLess, h.irrefl]
  trans := fun a b c h1 h2 => by
    simp only [pairLess, Bool.or_eq_true, Bool.and_eq_true, Bool.not_eq_true'] at h1 h2 ⊢
    rcases h1 with h1 | ⟨h1, h1'⟩
    · rcases h2 with h2 | ⟨h2, _⟩
      · exact Or.inl (h.trans _ _ _ h1 h2)
      · left
        cases h3 : lt b.1 c.1 with
        | true => exact h.trans _ _ _ h1 h3
        | false => rw [← h.total _ _ h3 h2]; exact h1
    · rcases h2 with h2 | ⟨h2, h2'⟩
      · left
        cases h3 : lt a.1 b.1 with
        | true => exact h.trans _ _ _ h3 h2
        | false => rw [h.total _ _ h3 h1]; exact h2
      · cases h3 : lt a.1 b.1 with
        | true =>
          left
          cases h4 : lt b.1 c.1 with
          | true => exact h.trans _ _ _ h3 h4
          | false => rw [← h.total _ _ h4 h2]; exact h3
        | false =>
          have e1 : a.1 = b.1 := h.total _ _ h3 h1
          cases h4 : lt b.1 c.1 with
          | true => left; rw [e1]; exact h4
          | false =>
            have e2 : b.1 = c.1 := h.total _ _ h4 h2
            right
            refine ⟨?_, h.trans _ _ _ h1' h2'⟩
            rw [e1, e2]; exact h.irrefl _
  total := fun a b h1 h2 => by
    simp only [pairLess, Bool.or_eq_false_iff, Bool.and_eq_false_imp, Bool.not_eq_true'] at h1 h2
    have e1 : a.1 = b.1 := h.total _ _ h1.1 h2.1
    have e2 : a.2 = b.2 := h.total _ _ (h1.2 h2.1) (h2.2 h1.1)
    exact Prod.ext e1 e2

section MapLemmas

variable {K V : Type} {lt : K → K → Bool}

theorem StrictTotal.asymm (h : StrictTotal lt) {a b : K} (hab : lt a b = true) :
    lt b a = false := by
  cases hba : lt b a with
  | false => rfl
  | true =>
    have := h.trans a b a hab hba
    rw [h.irrefl a] at this
    exact absurd this (by simp)

theorem StrictTotal.ne_of_lt (h : StrictTotal lt) {a b : K} (hab : lt a b = true) : a ≠ b := by
  intro e
  rw [e, h.irrefl b] at hab
  exact absurd hab (by simp)

theorem mem_mapInsert (k : K) (v : V) (x : K × V) :
    ∀ m : StdMap K V, x ∈ mapInsert lt k v m → x.2 = v ∨ x ∈ m
  | [], hx => by
    simp only [mapInsert, List.mem_singleton] at hx
    left; rw [hx]
  | (k', v') :: rest, hx => by
    simp only [mapInsert] at hx
    split at hx
    · rcases List.mem_cons.1 hx with h | h
      · left; rw [h]
      · right; exact h
    · split at hx
      · rcases List.mem_cons.1 hx with h | h
        · right; rw [h]; exact List.mem_cons_self _ _
        · rcases mem_mapInsert k v x rest h with h | h
          · left; exact h
          · right; exact List.mem_cons_of_mem _ h
      · rcases List.mem_cons.1 hx with h | h
        · left; rw [h]
        · right; exact List.mem_cons_of_mem _ h

theorem key_mem_mapInsert (k : K) (v : V) (x : K × V) :
    ∀ m : StdMap K V, x ∈ mapInsert lt k v m → x.1 = k ∨ ∃ y ∈ m, y.1 = x.1
  | [], hx => by
    simp only [mapInsert, List.mem_singleton] at hx
    left; rw [hx]
  | (k', v') :: rest, hx => by
    simp only [mapInsert] at hx
    split at hx
    · rcases List.mem_cons.1 hx with h | h
      · left; rw [h]
      · right; exact ⟨x, h, rfl⟩
    · split at hx
      · rcases List.mem_cons.1 hx with h | h
        · right; exact ⟨(k', v'), List.mem_cons_self _ _, by rw [h]⟩
        · rcases key_mem_mapInsert k v x rest h with h | ⟨y, hy, e⟩
          · left; exact h
          · right; exact ⟨y, List.mem_cons_of_mem _ hy, e⟩
      · rcases List.mem_cons.1 hx with h | h
        · right; exact ⟨(k', v'), List.mem_cons_self _ _, by rw [h]⟩
        · right; exact ⟨x, List.mem_cons_of_mem _ h, rfl⟩

theorem keysAscending_mapInsert (h : StrictTotal lt) (k : K) (v : V) :
    ∀ m : StdMap K V, KeysAscending lt m → KeysAscending lt (mapInsert lt k v m)
  | [], _ => by simp [mapInsert, KeysAscending]
  | (k', v') :: rest, hm => by
    have hm' := List.pairwise_cons.1 hm
    simp only [mapInsert]
    split
    · rename_i hlt
      refine List.pairwise_cons.2 ⟨?_, hm⟩
      intro y hy
      rcases List.mem_cons.1 hy with e | hy
      · rw [e]; exact hlt
      · exact h.trans _ _ _ hlt (hm'.1 y hy)
    · split
      · rename_i _ hlt
        refine List.pairwise_cons.2 ⟨?_, keysAscending_mapInsert h k v rest hm'.2⟩
        intro y hy
        rcases key_mem_mapInsert k v y rest hy with e | ⟨z, hz, e⟩
        · rw [e]; exact hlt
        · rw [← e]; exact hm'.1 z hz
      · exact List.pairwise_cons.2 ⟨fun y hy => hm'.1 y hy, hm'.2⟩

theorem lookup_mapInsert_self [BEq K] [LawfulBEq K] (h : StrictTotal lt) (k : K) (v : V) :
    ∀ m : StdMap K V, (mapInsert lt k v m).lookup k = some v
  | [] => by simp [mapInsert, List.lookup]
  | (k', v') :: rest => by
    simp only [mapInsert]
    split
    · simp [List.lookup]
    · split
      · rename_i _ hlt
        have hne : (k == k') = false := by
          simp only [beq_eq_false_iff_ne]
          exact fun e => h.ne_of_lt hlt e.symm
        simp only [List.lookup, hne]
        exact lookup_mapInsert_self h k v rest
      · rename_i h1 h2
        have e : k = k' := h.total k k' (by simpa using h1) (by simpa using h2)
        simp [List.lookup, e]

theorem lookup_mapInsert_ne [BEq K] [LawfulBEq K] (h : StrictTotal lt) (k : K) (v : V) (k₀ : K)
    (hne : k₀ ≠ k) : ∀ m : StdMap K V, (mapInsert lt k v m).lookup k₀ = m.lookup k₀
  | [] => by
    have : (k₀ == k) = false := by simpa using hne
    simp [mapInsert, List.lookup, this]
  | (k', v') :: rest => by
    simp only [mapInsert]
    split
    · have : (k₀ == k) = false := by simpa using hne
      simp only [List.lookup, this]
    · split
      · simp only [List.lookup]
        cases (k₀ == k') with
        | true => rfl
        | false => exact lookup_mapInsert_ne h k v k₀ hne rest
      · rename_i h1 h2
        have e : k = k' := h.total k k' (by simpa using h1) (by simpa using h2)
        have : (k₀ == k') = false := by rw [← e]; simpa using hne
        simp only [List.lookup, this]

theorem mapInsert_of_all_lt (h : StrictTotal lt) (k : K) (v : V) :
    ∀ m : StdMap K V, (∀ x ∈ m, lt x.1 k = true) → mapInsert lt k v m = m ++ [(k, v)]
  | [], _ => rfl
  | (k', v') :: rest, hm => by
    have h1 : lt k' k = true := hm (k', v') (List.mem_cons_self _ _)
    have h2 : lt k k' = false := h.asymm h1
    simp only [mapInsert, h1, h2, if_true, Bool.false_eq_true, if_false, List.cons_append]
    rw [mapInsert_of_all_lt h k v rest (fun x hx => hm x (List.mem_cons_of_mem _ hx))]

theorem foldl_mapInsert_of_ascending (h : StrictTotal lt) :
    ∀ (l acc : StdMap K V), KeysAscending lt (acc ++ l) →
      l.foldl (fun m e => mapInsert lt e.1 e.2 m) acc = acc ++ l
  | [], acc, _ => by simp
  | e :: l, acc, hs => by
    have hs' : KeysAscending lt ((acc ++ [e]) ++ l) := by simpa using hs
    have hacc : ∀ x ∈ acc, lt x.1 e.1 = true := by
      intro x hx
      have := List.pairwise_append.1 hs
      exact this.2.2 x hx e (List.mem_cons_self _ _)
    simp only [List.foldl_cons]
    rw [mapInsert_of_all_lt h e.1 e.2 acc hacc]
    rw [foldl_mapInsert_of_ascending h l (acc ++ [e]) hs']
    simp

theorem keys_nodup_of_ascending (h : StrictTotal lt) (m : StdMap K V)
    (hm : KeysAscending lt m) : (m.map Prod.fst).Nodup := by
  unfold KeysAscending at hm
  rw [List.Nodup, List.pairwise_map]
  exact hm.imp (fun hab => h.ne_of_lt hab)
end MapLemmas

/-! ## The structure of a load -/

section LoadLemmas

variable {R P : Type}

theorem locateNode_name (root node : XMLNode) (name : String)
    (h : XMLUtils.locateNode root name = .ok node) : node.name = name := by
  unfold XMLUtils.locateNode at h
  split at h
  · cases h; assumption
  · split at h
    · rename_i c hc
      cases h
      have := List.find?_some hc
      simpa [XMLUtils.getChildNode] using this
    · cases h

theorem fromXML_eq (c : Codec R P) (root : XMLNode) (d : List (StressTestData R P)) :
    (∃ e, XMLUtils.locateNode root "StressTesting" = .error e ∧
        fromXML c root d = (.error e, [])) ∨
      fromXML c root d = loadStressTests c (testCaseNodes root) [] := by
  unfold fromXML testCaseNodes
  cases h : XMLUtils.locateNode root "StressTesting" with
  | error e => left; exact ⟨e, rfl, rfl⟩
  | ok node =>
    right
    have hn := locateNode_name root node _ h
    simp [XMLUtils.checkNode, hn]

theorem loadStressTests_ok (c : Codec R P) :
    ∀ (nodes : List XMLNode) (acc : List (StressTestData R P)),
      (loadStressTests c nodes acc).1 = .ok () →
      ∃ ts, List.Forall₂ (fun n t => loadStressTest c n = .ok t) nodes ts ∧
        (loadStressTests c nodes acc).2 = acc ++ ts
  | [], acc, _ => ⟨[], List.Forall₂.nil, by simp [loadStressTests]⟩
  | n :: rest, acc, h => by
    unfold loadStressTests at h ⊢
    cases hn : loadStressTest c n with
    | error e => rw [hn] at h; cases h
    | ok t =>
      rw [hn] at h
      simp only at h ⊢
      obtain ⟨ts, hts, hs⟩ := loadStressTests_ok c rest (acc ++ [t]) h
      exact ⟨t :: ts, List.Forall₂.cons hn hts, by rw [hs]; simp⟩

theorem loadStressTests_of_forall₂ (c : Codec R P) :
    ∀ (nodes : List XMLNode) (ts acc : List (StressTestData R P)),
      List.Forall₂ (fun n t => loadStressTest c n = .ok t) nodes ts →
      loadStressTests c nodes acc = (.ok (), acc ++ ts)
  | [], _, acc, h => by cases h; simp [loadStressTests]
  | n :: rest, _, acc, h => by
    cases h with
    | cons hn hrest =>
      rename_i t ts
      unfold loadStressTests
      rw [hn]
      simp only
      rw [loadStressTests_of_forall₂ c rest ts (acc ++ [t]) hrest]
      simp

theorem loadStressTests_error (c : Codec R P) (e : LoadError) :
    ∀ (nodes : List XMLNode) (acc : List (StressTestData R P)),
      (loadStressTests c nodes acc).1 = .error e →
      ∃ pre bad post ts, nodes = pre ++ bad :: post ∧
        List.Forall₂ (fun n t => loadStressTest c n = .ok t) pre ts ∧
        loadStressTest c bad = .error e ∧
        (loadStressTests c nodes acc).2 = acc ++ ts
  | [], acc, h => by simp [loadStressTests] at h
  | n :: rest, acc, h => by
    unfold loadStressTests at h ⊢
    cases hn : loadStressTest c n with
    | error e' =>
      rw [hn] at h
      simp only at h ⊢
      cases h
      exact ⟨[], n, rest, [], rfl, List.Forall₂.nil, hn, by simp⟩
    | ok t =>
      rw [hn] at h
      simp only at h ⊢
      obtain ⟨pre, bad, post, ts, hsplit, hts, hbad, hs⟩ :=
        loadStressTests_error c e rest (acc ++ [t]) h
      exact ⟨n :: pre, bad, post, t :: ts, by rw [hsplit]; rfl, List.Forall₂.cons hn hts, hbad,
        by rw [hs]; simp⟩

theorem loadSection_eq {D : Type} (testCase : XMLNode) (marketDataNames marketDataName
    attr : String) (readData : XMLNode → Except LoadError D) :
    loadSection testCase marketDataNames marketDataName attr readData =
      loadShifts attr readData (sectionNodes testCase marketDataNames marketDataName) [] := by
  unfold loadSection sectionNodes
  cases XMLUtils.getChildNode testCase marketDataNames <;> rfl

theorem loadShifts_ok_reads {D : Type} (attr : String) (readData : XMLNode → Except LoadError D) :
    ∀ (nodes : List XMLNode) (acc m : StdMap String D),
      loadShifts attr readData nodes acc = .ok m → ∀ n ∈ nodes, ∃ d, readData n = .ok d
  | [], _, _, _, n, hn => by cases hn
  | x :: rest, acc, m, h, n, hn => by
    unfold loadShifts at h
    cases hx : readData x with
    | error e => rw [hx] at h; cases h
    | ok d =>
      rw [hx] at h
      rcases List.mem_cons.1 hn with e | hn
      · exact ⟨d, by rw [e]; exact hx⟩
      · exact loadShifts_ok_reads attr readData rest _ m h n hn

theorem loadShifts_forall {D : Type} (attr : String) (readData : XMLNode → Except LoadError D)
    (Q : D → Prop) (hQ : ∀ n d, readData n = .ok d → Q d) :
    ∀ (nodes : List XMLNode) (acc m : StdMap String D),
      (∀ x ∈ acc, Q x.2) → loadShifts attr readData nodes acc = .ok m → ∀ x ∈ m, Q x.2
  | [], acc, m, hacc, h => by
    unfold loadShifts at h
    cases h
    exact hacc
  | x :: rest, acc, m, hacc, h => by
    unfold loadShifts at h
    cases hx : readData x with
    | error e => rw [hx] at h; cases h
    | ok d =>
      rw [hx] at h
      refine loadShifts_forall attr readData Q hQ rest _ m ?_ h
      intro y hy
      rcases mem_mapInsert _ _ y acc hy with e | hy
      · rw [e]; exact hQ x d hx
      · exact hacc y hy

end LoadLemmas

section CaseLemmas

variable {R P : Type}

theorem loadStressTest_ok (c : Codec R P) (testCase : XMLNode) (t : StressTestData R P)
    (h : loadStressTest c testCase = .ok t) :
    loadSection testCase "DiscountCurves" "DiscountCurve" "ccy"
        (readCurveShiftData c "discount curve") = .ok t.discountCurveShifts ∧
    loadSection testCase "IndexCurves" "IndexCurve" "index"
        (readCurveShiftData c "index curve") = .ok t.indexCurveShifts ∧
    loadSection testCase "YieldCurves" "YieldCurve" "name"
        (readCurveShiftData c "yield curve") = .ok t.yieldCurveShifts ∧
    loadSection testCase "FxSpots" "FxSpot" "ccypair" (readSpotShiftData c) = .ok t.fxShifts ∧
    loadSection testCase "FxVolatilities" "FxVolatility" "ccypair" (readVolShiftData c) =
        .ok t.fxVolShifts ∧
    loadSection testCase "EquitySpots" "EquitySpot" "equity" (readSpotShiftData c) =
        .ok t.equityShifts ∧
    loadSection testCase "EquityVolatilities" "EquityVolatility" "equity"
        (readVolShiftData c) = .ok t.equityVolShifts ∧
    loadSection testCase "SwaptionVolatilities" "SwaptionVolatility" "ccy"
        (readSwaptionVolShiftData c) = .ok t.swaptionVolShifts ∧
    loadSection testCase "CapFloorVolatilities" "CapFloorVolatility" "ccy"
        (readCapFloorVolShiftData c) = .ok t.capVolShifts ∧
    loadSection testCase "SecuritySpreads" "SecuritySpread" "security"
        (readSpotShiftData c) = .ok t.securitySpreadShifts ∧
    t.label = XMLUtils.getAttribute testCase "id" := by
  unfold loadStressTest at h
  split at h
  · cases h
  split at h
  · cases h
  split at h
  · cases h
  split at h
  · cases h
  split at h
  · cases h
  split at h
  · cases h
  split at h
  · cases h
  split at h
  · cases h
  split at h
  · cases h
  split at h
  · cases h
  cases h
  refine ⟨?_, ?_, ?_, ?_, ?_, ?_, ?_, ?_, ?_, ?_, rfl⟩ <;> assumption

theorem loadStressTest_of_sections (c : Codec R P) (testCase : XMLNode) (t : StressTestData R P)
    (h1 : loadSection testCase "DiscountCurves" "DiscountCurve" "ccy"
        (readCurveShiftData c "discount curve") = .ok t.discountCurveShifts)
    (h2 : loadSection testCase "IndexCurves" "IndexCurve" "index"
        (readCurveShiftData c "index curve") = .ok t.indexCurveShifts)
    (h3 : loadSection testCase "YieldCurves" "YieldCurve" "name"
        (readCurveShiftData c "yield curve") = .ok t.yieldCurveShifts)
    (h4 : loadSection testCase "FxSpots" "FxSpot" "ccypair" (readSpotShiftData c) =
        .ok t.fxShifts)
    (h5 : loadSection testCase "FxVolatilities" "FxVolatility" "ccypair" (readVolShiftData c) =
        .ok t.fxVolShifts)
    (h6 : loadSection testCase "EquitySpots" "EquitySpot" "equity" (readSpotShiftData c) =
        .ok t.equityShifts)
    (h7 : loadSection testCase "EquityVolatilities" "EquityVolatility" "equity"
        (readVolShiftData c) = .ok t.equityVolShifts)
    (h8 : loadSection testCase "SwaptionVolatilities" "SwaptionVolatility" "ccy"
        (readSwaptionVolShiftData c) = .ok t.swaptionVolShifts)
    (h9 : loadSection testCase "CapFloorVolatilities" "CapFloorVolatility" "ccy"
        (readCapFloorVolShiftData c) = .ok t.capVolShifts)
    (h10 : loadSection testCase "SecuritySpreads" "SecuritySpread" "security"
        (readSpotShiftData c) = .ok t.securitySpreadShifts)
    (h11 : XMLUtils.getAttribute testCase "id" = t.label) :
    loadStressTest c testCase = .ok t := by
  unfold loadStressTest
  rw [h1, h2, h3, h4, h5, h6, h7, h8, h9, h10, h11]

theorem fromXML_ok (c : Codec R P) (root : XMLNode) (d : List (StressTestData R P))
    (h : (fromXML c root d).1 = .ok ()) :
    List.Forall₂ (fun n t => loadStressTest c n = .ok t) (testCaseNodes root)
      (fromXML c root d).2 := by
  rcases fromXML_eq c root d with ⟨e, _, he⟩ | he
  · rw [he] at h; cases h
  · rw [he] at h ⊢
    obtain ⟨ts, hts, hs⟩ := loadStressTests_ok c _ [] h
    rw [hs]
    simpa using hts

theorem forall₂_left_mem {A B : Type} {r : A → B → Prop} :
    ∀ {l₁ : List A} {l₂ : List B}, List.Forall₂ r l₁ l₂ → ∀ a ∈ l₁, ∃ b ∈ l₂, r a b
  | _, _, .nil, a, ha => by cases ha
  | _, _, .cons hr hrest, a, ha => by
    rcases List.mem_cons.1 ha with e | ha
    · exact ⟨_, List.mem_cons_self _ _, by rw [e]; exact hr⟩
    · obtain ⟨b, hb, hab⟩ := forall₂_left_mem hrest a ha
      exact ⟨b, List.mem_cons_of_mem _ hb, hab⟩

theorem forall₂_right_mem {A B : Type} {r : A → B → Prop} :
    ∀ {l₁ : List A} {l₂ : List B}, List.Forall₂ r l₁ l₂ → ∀ b ∈ l₂, ∃ a ∈ l₁, r a b
  | _, _, .nil, b, hb => by cases hb
  | _, _, .cons hr hrest, b, hb => by
    rcases List.mem_cons.1 hb with e | hb
    · exact ⟨_, List.mem_cons_self _ _, by rw [e]; exact hr⟩
    · obtain ⟨a, ha, hab⟩ := forall₂_right_mem hrest b hb
      exact ⟨a, List.mem_cons_of_mem _ ha, hab⟩

/-- A load that returns normally has read every visited test case. -/
theorem fromXML_ok_case (c : Codec R P) (root : XMLNode) (d : List (StressTestData R P))
    (h : (fromXML c root d).1 = .ok ()) (testCase : XMLNode)
    (htc : testCase ∈ testCaseNodes root) :
    ∃ t ∈ (fromXML c root d).2, loadStressTest c testCase = .ok t :=
  forall₂_left_mem (fromXML_ok c root d h) testCase htc

/-- A section that loads has read every node it visits. -/
theorem loadSection_ok_reads {D : Type} (testCase : XMLNode) (marketDataNames marketDataName
    attr : String) (readData : XMLNode → Except LoadError D) (m : StdMap String D)
    (h : loadSection testCase marketDataNames marketDataName attr readData = .ok m) :
    ∀ n ∈ sectionNodes testCase marketDataNames marketDataName, ∃ d, readData n = .ok d := by
  rw [loadSection_eq] at h
  exact loadShifts_ok_reads attr readData _ [] m h

end CaseLemmas

/-! ## The first defect of a load -/

section FirstDefectLemmas

variable {R P : Type}

theorem loadShifts_first_error {D : Type} (attr : String)
    (readData : XMLNode → Except LoadError D) (e : LoadError) (bad : XMLNode)
    (post : List XMLNode) (hbad : readData bad = .error e) :
    ∀ (pre : List XMLNode) (acc : StdMap String D), (∀ n ∈ pre, ∃ x, readData n = .ok x) →
      loadShifts attr readData (pre ++ bad :: post) acc = .error e
  | [], acc, _ => by
    rw [List.nil_append, loadShifts, hbad]
  | x :: pre, acc, h => by
    obtain ⟨dx, hx⟩ := h x (List.mem_cons_self _ _)
    rw [List.cons_append, loadShifts, hx]
    exact loadShifts_first_error attr readData e bad post hbad pre _
      (fun n hn => h n (List.mem_cons_of_mem _ hn))

theorem loadSection_first_error {D : Type} (testCase : XMLNode)
    (marketDataNames marketDataName attr : String) (readData : XMLNode → Except LoadError D)
    (e : LoadError) (pre post : List XMLNode) (bad : XMLNode)
    (hsplit : sectionNodes testCase marketDataNames marketDataName = pre ++ bad :: post)
    (hpre : ∀ n ∈ pre, ∃ x, readData n = .ok x) (hbad : readData bad = .error e) :
    loadSection testCase marketDataNames marketDataName attr readData = .error e := by
  rw [loadSection_eq, hsplit]
  exact loadShifts_first_error attr readData e bad post hbad pre [] hpre

theorem loadStressTests_first_error (c : Codec R P) (e : LoadError) (bad : XMLNode)
    (post : List XMLNode) (hbad : loadStressTest c bad = .error e) :
    ∀ (pre : List XMLNode) (acc : List (StressTestData R P)),
      (∀ n ∈ pre, ∃ t, loadStressTest c n = .ok t) →
      (loadStressTests c (pre ++ bad :: post) acc).1 = .error e
  | [], acc, _ => by
    rw [List.nil_append, loadStressTests, hbad]
  | x :: pre, acc, h => by
    obtain ⟨t, hx⟩ := h x (List.mem_cons_self _ _)
    rw [List.cons_append, loadStressTests, hx]
    exact loadStressTests_first_error c e bad post hbad pre _
      (fun n hn => h n (List.mem_cons_of_mem _ hn))

/-- The error of a load is the error of the first test case that fails. -/
theorem fromXML_first_error (c : Codec R P) (root : XMLNode) (d : List (StressTestData R P))
    (e : LoadError) (pre post : List XMLNode) (bad : XMLNode)
    (hsplit : testCaseNodes root = pre ++ bad :: post)
    (hpre : ∀ n ∈ pre, ∃ t, loadStressTest c n = .ok t)
    (hbad : loadStressTest c bad = .error e) : (fromXML c root d).1 = .error e := by
  rcases fromXML_eq c root d with ⟨e', hloc, _⟩ | he
  · unfold testCaseNodes at hsplit
    rw [hloc] at hsplit
    cases pre <;> cases hsplit
  · rw [he, hsplit]
    exact loadStressTests_first_error c e bad post hbad pre [] hpre

theorem readSwaptionShift_wellFormed (c : Codec R P) (data : SwaptionVolShiftData R P)
    (n : XMLNode) (h : WellFormedShift c n) : ∃ data1, readSwaptionShift c data n = .ok data1 := by
  rcases h with ⟨h1, h2, hv⟩ | ⟨h1, h2, he, ht, hv⟩
  · obtain ⟨v, hv⟩ := Option.isSome_iff_exists.1 hv
    exact ⟨{ data with parallelShiftSize := v },
      by simp [readSwaptionShift, h1, h2, parseReal, hv]⟩
  · obtain ⟨v, hv⟩ := Option.isSome_iff_exists.1 hv
    obtain ⟨e, he⟩ := Option.isSome_iff_exists.1 he
    obtain ⟨t, ht⟩ := Option.isSome_iff_exists.1 ht
    exact ⟨{ data with shifts := mapInsert (pairLess c.periodLess) (e, t) v data.shifts },
      by simp [readSwaptionShift, h1, h2, parseReal, parsePeriod, hv, he, ht]⟩

theorem readSwaptionShifts_first_error (c : Codec R P) (e : LoadError) (bad : XMLNode)
    (post : List XMLNode) (hbad : ∀ data, readSwaptionShift c data bad = .error e) :
    ∀ (pre : List XMLNode) (data : SwaptionVolShiftData R P),
      (∀ n ∈ pre, WellFormedShift c n) →
      readSwaptionShifts c (pre ++ bad :: post) data = .error e
  | [], data, _ => by
    rw [List.nil_append, readSwaptionShifts, hbad]
  | x :: pre, data, h => by
    obtain ⟨data1, hx⟩ := readSwaptionShift_wellFormed c data x (h x (List.mem_cons_self _ _))
    rw [List.cons_append, readSwaptionShifts, hx]
    exact readSwaptionShifts_first_error c e bad post hbad pre _
      (fun n hn => h n (List.mem_cons_of_mem _ hn))

end FirstDefectLemmas

/-! ## The claims -/

section Claims

variable {R P : Type}

/-- C1 (the code at a failing input): the collection `[mixedCase]` does not survive a dump and a
load: the load succeeds and gives `[mixedCaseReloaded]`, in which the index curve shift sits
under the empty key and the swaption volatility shift is gone. -/
theorem roundTrip_mixedCase :
    fromXML tokenCodec (toXML tokenCodec [mixedCase]) [] = (.ok (), [mixedCaseReloaded]) ∧
      [mixedCaseReloaded] ≠ [mixedCase] := by
  decide

theorem readCurveShiftData_sizeMismatch (c : Codec R P) (kind : String) (child : XMLNode)
    (s : String) (m : List R) (t : List P)
    (hs : XMLUtils.getChildValue child "ShiftType" true = .ok s)
    (hm : XMLUtils.getChildrenValuesAsDoublesCompact c child "Shifts" true = .ok m)
    (ht : XMLUtils.getChildrenValuesAsPeriods c child "ShiftTenors" true = .ok t)
    (hlen : m.length ≠ t.length) :
    readCurveShiftData c kind child = .error (.sizeMismatch kind) := by
  unfold readCurveShiftData
  rw [hs, hm, ht]
  simp [hlen]

theorem readCurveShiftData_ok (c : Codec R P) (kind : String) (child : XMLNode)
    (data : CurveShiftData R P) (h : readCurveShiftData c kind child = .ok data) :
    XMLUtils.getChildValue child "ShiftType" true = .ok data.shiftType ∧
      XMLUtils.getChildrenValuesAsDoublesCompact c child "Shifts" true = .ok data.shifts ∧
      XMLUtils.getChildrenValuesAsPeriods c child "ShiftTenors" true = .ok data.shiftTenors ∧
      data.shifts.length = data.shiftTenors.length ∧ 0 < data.shifts.length := by
  unfold readCurveShiftData at h
  split at h
  · cases h
  split at h
  · cases h
  split at h
  · cases h
  split at h
  · cases h
  split at h
  · cases h
  cases h
  refine ⟨by assumption, by assumption, by assumption, ?_, ?_⟩
  · dsimp only
    omega
  · dsimp only
    omega

/-- The curve nodes a successful load has visited were all read. -/
theorem fromXML_ok_curve_read (c : Codec R P) (root : XMLNode) (d : List (StressTestData R P))
    (h : (fromXML c root d).1 = .ok ()) (testCase child : XMLNode)
    (names name attr kind : String) (hsec : (names, name, attr, kind) ∈ curveSections)
    (htc : testCase ∈ testCaseNodes root) (hchild : child ∈ sectionNodes testCase names name) :
    ∃ data, readCurveShiftData c kind child = .ok data := by
  obtain ⟨t, _, ht⟩ := fromXML_ok_case c root d h testCase htc
  obtain ⟨h1, h2, h3, _⟩ := loadStressTest_ok c testCase t ht
  simp only [curveSections, List.mem_cons, Prod.mk.injEq, List.mem_singleton, List.mem_nil_iff,
    or_false] at hsec
  rcases hsec with ⟨rfl, rfl, rfl, rfl⟩ | ⟨rfl, rfl, rfl, rfl⟩ | ⟨rfl, rfl, rfl, rfl⟩
  · exact loadSection_ok_reads _ _ _ _ _ _ h1 child hchild
  · exact loadSection_ok_reads _ _ _ _ _ _ h2 child hchild
  · exact loadSection_ok_reads _ _ _ _ _ _ h3 child hchild

/-- C2 (the claim fails): a document that contains a `DiscountCurve` node with three shifts and
two tenors need not fail with the size mismatch. In `earlierDefectDoc` the node comes after a
node without shifts and tenors, and the load fails with the empty-sequence error of that node;
in `secondSectionDoc` the node sits in a second `DiscountCurves` section, which the loader does
not read, and the load succeeds. -/
theorem size_mismatch_not_always_reported :
    XMLUtils.getChildrenValuesAsDoublesCompact tokenCodec mismatchNode "Shifts" true =
        .ok ["0.1", "0.2", "0.3"] ∧
      XMLUtils.getChildrenValuesAsPeriods tokenCodec mismatchNode "ShiftTenors" true =
        .ok ["1Y", "2Y"] ∧
      mismatchNode ∈ sectionNodes earlierDefectCase "DiscountCurves" "DiscountCurve" ∧
      (fromXML tokenCodec earlierDefectDoc []).1 = .error (.emptySequence "discount curve") ∧
      (fromXML tokenCodec earlierDefectDoc []).1 ≠ .error (.sizeMismatch "discount curve") ∧
      fromXML tokenCodec secondSectionDoc [] = (.ok (), [parallelUpCase]) :=
  ⟨by decide, by decide, List.mem_cons_of_mem _ (List.mem_singleton.2 rfl), by decide, by decide,
    by decide⟩

/-- C2, amended: a `DiscountCurve`, `IndexCurve` or `YieldCurve` node that the load visits and
whose `Shifts` and `ShiftTenors` decode to sequences of different lengths is rejected: the error
the node raises (its `ShiftType` being there) is the size mismatch, the node is never read into
a spec, truncated, padded or otherwise, and the load of the document does not succeed. The
error of the load is the size mismatch when the node is the first defect that the loader meets:
it has a `ShiftType`, the test cases before its test case load, the curve sections read before
its section load, and the nodes before it in its section are read. -/
theorem size_mismatch_rejected (c : Codec R P) (root : XMLNode) (d : List (StressTestData R P))
    (testCase child : XMLNode) (names name attr kind : String) (m : List R) (t : List P)
    (hsec : (names, name, attr, kind) ∈ curveSections)
    (htc : testCase ∈ testCaseNodes root) (hchild : child ∈ sectionNodes testCase names name)
    (hm : XMLUtils.getChildrenValuesAsDoublesCompact c child "Shifts" true = .ok m)
    (ht : XMLUtils.getChildrenValuesAsPeriods c child "ShiftTenors" true = .ok t)
    (hlen : m.length ≠ t.length) :
    (∀ s, XMLUtils.getChildValue child "ShiftType" true = .ok s →
        readCurveShiftData c kind child = .error (.sizeMismatch kind)) ∧
      (∀ data, readCurveShiftData c kind child ≠ .ok data) ∧
      (fromXML c root d).1 ≠ .ok () ∧
      (∀ s preCases postCases pre post,
        XMLUtils.getChildValue child "ShiftType" true = .ok s →
        testCaseNodes root = preCases ++ testCase :: postCases →
        (∀ n ∈ preCases, ∃ test, loadStressTest c n = .ok test) →
        CurveSectionsBeforeLoad c testCase (names, name, attr, kind) →
        sectionNodes testCase names name = pre ++ child :: post →
        (∀ n ∈ pre, ∃ data, readCurveShiftData c kind n = .ok data) →
        (fromXML c root d).1 = .error (.sizeMismatch kind)) := by
  have hno : ∀ data, readCurveShiftData c kind child ≠ .ok data := by
    intro data hd
    obtain ⟨_, h2, h3, h4, _⟩ := readCurveShiftData_ok c kind child data hd
    rw [hm] at h2
    rw [ht] at h3
    cases h2
    cases h3
    exact hlen h4
  refine ⟨fun s hs => readCurveShiftData_sizeMismatch c kind child s m t hs hm ht hlen, hno, ?_,
    ?_⟩
  · intro hok
    obtain ⟨data, hd⟩ :=
      fromXML_ok_curve_read c root d hok testCase child names name attr kind hsec htc hchild
    exact hno data hd
  · intro s preCases postCases pre post hs hcases hpreCases hbefore hsplit hpre
    have hbad := readCurveShiftData_sizeMismatch c kind child s m t hs hm ht hlen
    have hsection := loadSection_first_error testCase names name attr
      (readCurveShiftData c kind) (.sizeMismatch kind) pre post child hsplit hpre hbad
    refine fromXML_first_error c root d _ preCases postCases testCase hcases hpreCases ?_
    simp only [curveSections, List.mem_cons, Prod.mk.injEq, List.mem_singleton,
      List.mem_nil_iff, or_false] at hsec
    rcases hsec with hsec | hsec | hsec <;> obtain ⟨rfl, rfl, rfl, rfl⟩ := hsec
    · unfold loadStressTest
      rw [hsection]
    · obtain ⟨m1, h1⟩ := hbefore ("DiscountCurves", "DiscountCurve", "ccy", "discount curve")
        (by decide)
      unfold loadStressTest
      rw [h1, hsection]
    · obtain ⟨m1, h1⟩ := hbefore ("DiscountCurves", "DiscountCurve", "ccy", "discount curve")
        (by decide)
      obtain ⟨m2, h2⟩ := hbefore ("IndexCurves", "IndexCurve", "index", "index curve")
        (by decide)
      unfold loadStressTest
      rw [h1, h2, hsection]

/-- C2, amended, at `lateMismatchDoc`: the node with three shifts and two tenors is the second
node of the `YieldCurves` section of the second test case, nothing before it fails, and the
error of the load is the size mismatch. -/
theorem size_mismatch_rejected_witness :
    readCurveShiftData tokenCodec "yield curve" yieldMismatchNode =
        .error (.sizeMismatch "yield curve") ∧
      (fromXML tokenCodec lateMismatchDoc []).1 ≠ .ok () ∧
      (fromXML tokenCodec lateMismatchDoc []).1 = .error (.sizeMismatch "yield curve") :=
  have h := size_mismatch_rejected tokenCodec lateMismatchDoc [] lateMismatchCase
    yieldMismatchNode
    "YieldCurves" "YieldCurve" "name" "yield curve" ["0.1", "0.2", "0.3"] ["1Y", "2Y"]
    (by decide) (List.mem_cons_of_mem _ (List.mem_singleton.2 rfl))
    (List.mem_cons_of_mem _ (List.mem_singleton.2 rfl)) (by decide) (by decide) (by decide)
  ⟨h.1 "Absolute" (by decide), h.2.2.1,
    h.2.2.2 "Absolute" [parallelUpCaseNode] [] [yieldNode] [] (by decide) rfl
      (fun n hn => ⟨parallelUpCase, by rw [List.mem_singleton.1 hn]; decide⟩)
      (fun s hs => by
        have hs' : s ∈ [("DiscountCurves", "DiscountCurve", "ccy", "discount curve"),
            ("IndexCurves", "IndexCurve", "index", "index curve")] := hs
        simp only [List.mem_cons, List.mem_singleton, List.mem_nil_iff, or_false] at hs'
        rcases hs' with rfl | rfl
        · exact ⟨[("USD", parallelUpSpec)], by decide⟩
        · exact ⟨[], by decide⟩)
      rfl
      (fun n hn => ⟨parallelUpSpec, by rw [List.mem_singleton.1 hn]; decide⟩)⟩

end Claims

section InvariantClaims

variable {R P : Type}

theorem loadSection_forall {D : Type} (testCase : XMLNode) (marketDataNames marketDataName
    attr : String) (readData : XMLNode → Except LoadError D) (Q : D → Prop)
    (hQ : ∀ n d, readData n = .ok d → Q d) (m : StdMap String D)
    (h : loadSection testCase marketDataNames marketDataName attr readData = .ok m) :
    ∀ x ∈ m, Q x.2 := by
  rw [loadSection_eq] at h
  exact loadShifts_forall attr readData Q hQ _ [] m (fun x hx => by cases hx) h

/-- C3: after a load that succeeds, every curve shift stored in the discount, index or yield
curve map of a case of the collection has as many shifts as tenors, and at least one. -/
theorem loaded_curve_specs_valid (c : Codec R P) (root : XMLNode)
    (d : List (StressTestData R P)) (h : (fromXML c root d).1 = .ok ())
    (test : StressTestData R P) (htest : test ∈ (fromXML c root d).2)
    (entry : String × CurveShiftData R P)
    (hentry : entry ∈ test.discountCurveShifts ∨ entry ∈ test.indexCurveShifts ∨
      entry ∈ test.yieldCurveShifts) :
    entry.2.shifts.length = entry.2.shiftTenors.length ∧ 0 < entry.2.shifts.length := by
  obtain ⟨node, _, hnode⟩ := forall₂_right_mem (fromXML_ok c root d h) test htest
  obtain ⟨h1, h2, h3, _⟩ := loadStressTest_ok c node test hnode
  have hQ : ∀ kind n (data : CurveShiftData R P), readCurveShiftData c kind n = .ok data →
      data.shifts.length = data.shiftTenors.length ∧ 0 < data.shifts.length :=
    fun kind n data hd => (readCurveShiftData_ok c kind n data hd).2.2.2
  rcases hentry with he | he | he
  · exact loadSection_forall _ _ _ _ _ _ (hQ _) _ h1 entry he
  · exact loadSection_forall _ _ _ _ _ _ (hQ _) _ h2 entry he
  · exact loadSection_forall _ _ _ _ _ _ (hQ _) _ h3 entry he

/-- C3 at the scenario `parallel_up`. -/
theorem loaded_curve_specs_valid_witness :
    (fromXML tokenCodec parallelUpDoc []).1 = .ok () ∧
      parallelUpSpec.shifts.length = parallelUpSpec.shiftTenors.length ∧
      0 < parallelUpSpec.shifts.length :=
  ⟨by decide,
    loaded_curve_specs_valid tokenCodec parallelUpDoc [] (by decide) parallelUpCase (by decide)
      ("USD", parallelUpSpec) (Or.inl (by decide))⟩

theorem readSwaptionShift_lone (c : Codec R P) (data : SwaptionVolShiftData R P)
    (child2 : XMLNode)
    (hone : (XMLUtils.getAttribute child2 "expiry" = "" ∧
        XMLUtils.getAttribute child2 "term" ≠ "") ∨
      (XMLUtils.getAttribute child2 "expiry" ≠ "" ∧
        XMLUtils.getAttribute child2 "term" = "")) :
    readSwaptionShift c data child2 = .error .inconsistentGridKey := by
  unfold readSwaptionShift
  rcases hone with ⟨h1, h2⟩ | ⟨h1, h2⟩ <;> simp [h1, h2]

theorem readSwaptionShift_ok_attrs (c : Codec R P) (data data1 : SwaptionVolShiftData R P)
    (child2 : XMLNode) (h : readSwaptionShift c data child2 = .ok data1) :
    (XMLUtils.getAttribute child2 "expiry" = "" ∧ XMLUtils.getAttribute child2 "term" = "") ∨
      (XMLUtils.getAttribute child2 "expiry" ≠ "" ∧
        XMLUtils.getAttribute child2 "term" ≠ "") := by
  by_cases h1 : XMLUtils.getAttribute child2 "expiry" = "" <;>
    by_cases h2 : XMLUtils.getAttribute child2 "term" = ""
  · exact Or.inl ⟨h1, h2⟩
  · rw [readSwaptionShift_lone c data child2 (Or.inl ⟨h1, h2⟩)] at h
    cases h
  · rw [readSwaptionShift_lone c data child2 (Or.inr ⟨h1, h2⟩)] at h
    cases h
  · exact Or.inr ⟨h1, h2⟩

theorem readSwaptionShifts_ok_reads (c : Codec R P) :
    ∀ (nodes : List XMLNode) (data result : SwaptionVolShiftData R P),
      readSwaptionShifts c nodes data = .ok result →
      ∀ n ∈ nodes, ∃ d d1, readSwaptionShift c d n = .ok d1
  | [], _, _, _, n, hn => by cases hn
  | x :: rest, data, result, h, n, hn => by
    unfold readSwaptionShifts at h
    cases hx : readSwaptionShift c data x with
    | error e => rw [hx] at h; cases h
    | ok d1 =>
      rw [hx] at h
      rcases List.mem_cons.1 hn with e | hn
      · exact ⟨data, d1, by rw [e]; exact hx⟩
      · exact readSwaptionShifts_ok_reads c rest d1 result h n hn

theorem readSwaptionVolShiftData_ok (c : Codec R P) (child : XMLNode)
    (data : SwaptionVolShiftData R P) (h : readSwaptionVolShiftData c child = .ok data) :
    ∃ shiftType shiftTerms shiftExpiries shiftSizes,
      XMLUtils.getChildValue child "ShiftType" true = .ok shiftType ∧
      XMLUtils.getChildrenValuesAsPeriods c child "ShiftTerms" true = .ok shiftTerms ∧
      XMLUtils.getChildrenValuesAsPeriods c child "ShiftExpiries" true = .ok shiftExpiries ∧
      XMLUtils.getChildNode child "Shifts" = some shiftSizes ∧
      readSwaptionShifts c (XMLUtils.siblingsFrom shiftSizes "Shift")
        { shiftType := shiftType, shiftTerms := shiftTerms, shiftExpiries := shiftExpiries,
          parallelShiftSize := c.zero, shifts := [] } = .ok data := by
  unfold readSwaptionVolShiftData at h
  split at h
  · cases h
  split at h
  · cases h
  split at h
  · cases h
  split at h
  · cases h
  exact ⟨_, _, _, _, by assumption, by assumption, by assumption, by assumption, h⟩

/-- C4 (the claim fails): a `SwaptionVolatility` node with a `Shift` node carrying an `expiry`
and no `term` need not make the load fail with the inconsistent-grid-key error. In
`unparsableFirstDoc` that node comes after a `Shift` node whose text is not a number, and the
load fails with the error of that text; in `secondShiftsDoc` it sits in a second `Shifts` child,
which the loader does not read, and the load succeeds. -/
theorem grid_key_error_not_always_reported :
    XMLUtils.getAttribute loneExpiryShift "expiry" = "1Y" ∧
      XMLUtils.getAttribute loneExpiryShift "term" = "" ∧
      (fromXML tokenCodec unparsableFirstDoc []).1 = .error (.unparsable "") ∧
      (fromXML tokenCodec unparsableFirstDoc []).1 ≠ .error .inconsistentGridKey ∧
      (fromXML tokenCodec secondShiftsDoc []).1 = .ok () := by
  decide

/-- C4, amended: a `Shift` node that the load visits and that carries exactly one of the
attributes `expiry` and `term` (carrying an attribute being what the loader tests:
`getAttribute` does not give the empty string) raises the inconsistent-grid-key error whatever
was read before it; the `SwaptionVolatility` node holding it is never read into a spec and the
load of the document does not succeed. The error of the load is the inconsistent grid key when
the node is the first defect that the loader meets: the test cases before its test case load,
the sections read before the swaption volatilities load, the `SwaptionVolatility` nodes before
its own are read, the `ShiftType`, `ShiftTerms` and `ShiftExpiries` of its own decode, and the
`Shift` nodes before it are well-formed. A `Shift` node that is accepted carries both
attributes or neither. -/
theorem grid_key_symmetry (c : Codec R P) (root : XMLNode) (d : List (StressTestData R P))
    (testCase child shiftSizes child2 : XMLNode)
    (htc : testCase ∈ testCaseNodes root)
    (hchild : child ∈ sectionNodes testCase "SwaptionVolatilities" "SwaptionVolatility")
    (hshifts : XMLUtils.getChildNode child "Shifts" = some shiftSizes)
    (hchild2 : child2 ∈ XMLUtils.siblingsFrom shiftSizes "Shift")
    (hone : (XMLUtils.getAttribute child2 "expiry" = "" ∧
        XMLUtils.getAttribute child2 "term" ≠ "") ∨
      (XMLUtils.getAttribute child2 "expiry" ≠ "" ∧
        XMLUtils.getAttribute child2 "term" = "")) :
    (∀ data, readSwaptionShift c data child2 = .error .inconsistentGridKey) ∧
      (∀ data, readSwaptionVolShiftData c child ≠ .ok data) ∧
      (fromXML c root d).1 ≠ .ok () ∧
      (∀ n data data1, readSwaptionShift c data n = .ok data1 →
        (XMLUtils.getAttribute n "expiry" = "" ∧ XMLUtils.getAttribute n "term" = "") ∨
        (XMLUtils.getAttribute n "expiry" ≠ "" ∧ XMLUtils.getAttribute n "term" ≠ "")) ∧
      (∀ shiftType shiftTerms shiftExpiries preCases postCases pre post preShifts postShifts,
        testCaseNodes root = preCases ++ testCase :: postCases →
        (∀ n ∈ preCases, ∃ test, loadStressTest c n = .ok test) →
        SectionsBeforeSwaptionLoad c testCase →
        sectionNodes testCase "SwaptionVolatilities" "SwaptionVolatility" =
          pre ++ child :: post →
        (∀ n ∈ pre, ∃ data, readSwaptionVolShiftData c n = .ok data) →
        XMLUtils.getChildValue child "ShiftType" true = .ok shiftType →
        XMLUtils.getChildrenValuesAsPeriods c child "ShiftTerms" true = .ok shiftTerms →
        XMLUtils.getChildrenValuesAsPeriods c child "ShiftExpiries" true = .ok shiftExpiries →
        XMLUtils.siblingsFrom shiftSizes "Shift" = preShifts ++ child2 :: postShifts →
        (∀ n ∈ preShifts, WellFormedShift c n) →
        (fromXML c root d).1 = .error .inconsistentGridKey) := by
  have hno : ∀ data, readSwaptionVolShiftData c child ≠ .ok data := by
    intro data hd
    obtain ⟨_, _, _, s, _, _, _, hs, hloop⟩ := readSwaptionVolShiftData_ok c child data hd
    rw [hshifts] at hs
    cases hs
    obtain ⟨d0, d1, h01⟩ := readSwaptionShifts_ok_reads c _ _ _ hloop child2 hchild2
    rw [readSwaptionShift_lone c d0 child2 hone] at h01
    cases h01
  refine ⟨fun data => readSwaptionShift_lone c data child2 hone, hno, ?_,
    fun n data data1 h => readSwaptionShift_ok_attrs c data data1 n h, ?_⟩
  · intro hok
    obtain ⟨t, _, ht⟩ := fromXML_ok_case c root d hok testCase htc
    obtain ⟨_, _, _, _, _, _, _, h8, _⟩ := loadStressTest_ok c testCase t ht
    obtain ⟨data, hd⟩ := loadSection_ok_reads _ _ _ _ _ _ h8 child hchild
    exact hno data hd
  · intro shiftType shiftTerms shiftExpiries preCases postCases pre post preShifts postShifts
      hcases hpreCases hbefore hsplit hpre hType hTerms hExpiries hshiftNodes hpreShifts
    have hbad : readSwaptionVolShiftData c child = .error .inconsistentGridKey := by
      unfold readSwaptionVolShiftData
      rw [hType, hTerms, hExpiries, hshifts]
      dsimp only
      rw [hshiftNodes]
      exact readSwaptionShifts_first_error c _ child2 postShifts
        (fun data => readSwaptionShift_lone c data child2 hone) preShifts _ hpreShifts
    have hsection := loadSection_first_error testCase "SwaptionVolatilities"
      "SwaptionVolatility" "ccy" (readSwaptionVolShiftData c) .inconsistentGridKey pre post
      child hsplit hpre hbad
    refine fromXML_first_error c root d _ preCases postCases testCase hcases hpreCases ?_
    obtain ⟨⟨m1, h1⟩, ⟨m2, h2⟩, ⟨m3, h3⟩, ⟨m4, h4⟩, ⟨m5, h5⟩, ⟨m6, h6⟩, ⟨m7, h7⟩⟩ := hbefore
    unfold loadStressTest
    rw [h1, h2, h3, h4, h5, h6, h7, hsection]

/-- C4, amended, at `loneExpiryDoc`: the `Shift` node with an `expiry` and no `term` comes after
a well-formed bare `Shift` node, nothing before it fails, and the error of the load is the
inconsistent grid key. -/
theorem grid_key_symmetry_witness :
    (fromXML tokenCodec loneExpiryDoc []).1 ≠ .ok () ∧
      (fromXML tokenCodec loneExpiryDoc []).1 = .error .inconsistentGridKey :=
  have h := grid_key_symmetry tokenCodec loneExpiryDoc [] loneExpiryCase loneExpiryNode
    loneExpiryShifts loneExpiryShift (List.mem_singleton.2 rfl) (List.mem_singleton.2 rfl) rfl
    (List.mem_cons_of_mem _ (List.mem_singleton.2 rfl)) (Or.inr ⟨by decide, by decide⟩)
  ⟨h.2.2.1,
    h.2.2.2.2 "Absolute" ["5Y", "10Y"] ["1Y", "2Y"] [] [] [] []
      [XMLUtils.textNode "Shift" "0.001"] [] rfl (fun n hn => by cases hn)
      ⟨⟨[], by decide⟩, ⟨[], by decide⟩, ⟨[], by decide⟩, ⟨[], by decide⟩, ⟨[], by decide⟩,
        ⟨[], by decide⟩, ⟨[], by decide⟩⟩
      rfl (fun n hn => by cases hn) (by decide) (by decide) (by decide) rfl
      (fun n hn => by
        rw [List.mem_singleton.1 hn]
        exact Or.inl ⟨by decide, by decide, by decide⟩)⟩

end InvariantClaims

section SwaptionClaims

variable {R P : Type}

theorem getLast?_cons_getD {A : Type} (a z : A) (l : List A) :
    ((a :: l).getLast?).getD z = (l.getLast?).getD a := by
  rw [List.getLast?_cons]
  rfl

/-- The invariant of the loop over the shift value nodes, from any state `data` of the cube. -/
theorem readSwaptionShifts_spec [DecidableEq P] (c : Codec R P)
    (hlt : StrictTotal c.periodLess) :
    ∀ (nodes : List XMLNode) (data : SwaptionVolShiftData R P),
      (∀ n ∈ nodes, WellFormedShift c n) →
      ∃ result, readSwaptionShifts c nodes data = .ok result ∧
        result.shiftType = data.shiftType ∧ result.shiftTerms = data.shiftTerms ∧
        result.shiftExpiries = data.shiftExpiries ∧
        result.parallelShiftSize =
          ((nodes.filterMap (bareShiftValue c)).getLast?).getD data.parallelShiftSize ∧
        (∀ key, result.shifts.lookup key =
          match ((nodes.filterMap (gridShiftEntry c)).filter (fun x => x.1 = key)).getLast? with
          | some x => some x.2
          | none => data.shifts.lookup key) ∧
        (KeysAscending (pairLess c.periodLess) data.shifts →
          KeysAscending (pairLess c.periodLess) result.shifts)
  | [], data, _ => ⟨data, rfl, rfl, rfl, rfl, rfl, fun _ => rfl, fun h => h⟩
  | n :: rest, data, hwf => by
    have hrest : ∀ x ∈ rest, WellFormedShift c x := fun x hx => hwf x (List.mem_cons_of_mem _ hx)
    rcases hwf n (List.mem_cons_self _ _) with ⟨h1, h2, hv⟩ | ⟨h1, h2, he, ht, hv⟩
    · obtain ⟨v, hv⟩ := Option.isSome_iff_exists.1 hv
      have hstep : readSwaptionShift c data n = .ok { data with parallelShiftSize := v } := by
        simp [readSwaptionShift, h1, h2, parseReal, hv]
      have hbare : bareShiftValue c n = some v := by simp [bareShiftValue, h1, h2, hv]
      have hgrid : gridShiftEntry c n = none := by simp [gridShiftEntry, h1]
      obtain ⟨result, hr, r1, r2, r3, r4, r5, r6⟩ :=
        readSwaptionShifts_spec c hlt rest { data with parallelShiftSize := v } hrest
      refine ⟨result, ?_, r1, r2, r3, ?_, ?_, r6⟩
      · unfold readSwaptionShifts
        rw [hstep]
        exact hr
      · rw [List.filterMap_cons_some hbare, getLast?_cons_getD]
        exact r4
      · intro key
        rw [List.filterMap_cons_none hgrid]
        exact r5 key
    · obtain ⟨v, hv⟩ := Option.isSome_iff_exists.1 hv
      obtain ⟨e, he⟩ := Option.isSome_iff_exists.1 he
      obtain ⟨t, ht⟩ := Option.isSome_iff_exists.1 ht
      have hstep : readSwaptionShift c data n = .ok { data with
          shifts := mapInsert (pairLess c.periodLess) (e, t) v data.shifts } := by
        simp [readSwaptionShift, h1, h2, parseReal, parsePeriod, hv, he, ht]
      have hbare : bareShiftValue c n = none := by simp [bareShiftValue, h1]
      have hgrid : gridShiftEntry c n = some ((e, t), v) := by
        simp [gridShiftEntry, h1, h2, hv, he, ht]
      obtain ⟨result, hr, r1, r2, r3, r4, r5, r6⟩ :=
        readSwaptionShifts_spec c hlt rest { data with
          shifts := mapInsert (pairLess c.periodLess) (e, t) v data.shifts } hrest
      have hpl := pairLess_strictTotal hlt
      refine ⟨result, ?_, r1, r2, r3, ?_, ?_, ?_⟩
      · unfold readSwaptionShifts
        rw [hstep]
        exact hr
      · rw [List.filterMap_cons_none hbare]
        exact r4
      · intro key
        rw [List.filterMap_cons_some hgrid, r5 key]
        by_cases hk : (e, t) = key
        · rw [List.filter_cons_of_pos (by simpa using hk), List.getLast?_cons]
          cases hl : (List.filter (fun x => decide (x.1 = key))
              (List.filterMap (gridShiftEntry c) rest)).getLast? with
          | some y => rfl
          | none =>
            dsimp only
            rw [← hk]
            exact lookup_mapInsert_self hpl (e, t) v data.shifts
        · rw [List.filter_cons_of_neg (by simpa using hk)]
          cases hl : (List.filter (fun x => decide (x.1 = key))
              (List.filterMap (gridShiftEntry c) rest)).getLast? with
          | some y => rfl
          | none =>
            dsimp only
            exact lookup_mapInsert_ne hpl (e, t) v key (fun h => hk h.symm) data.shifts
      · intro hasc
        exact r6 (keysAscending_mapInsert hpl (e, t) v data.shifts hasc)

/-- C5: a well-formed `SwaptionVolatility` node (its `ShiftType`, `ShiftTerms`, `ShiftExpiries`
and `Shifts` are there and decode, each shift value node is well-formed, periods are strictly
and totally ordered) loads, and the cube it loads to has the decoded axes, as parallel shift the
value of the last shift value node without attributes (`0.0` when there is none), and as grid the
map that sends a pair of periods to the value of the last shift value node carrying that pair
and holds no other pair. -/
theorem swaption_cube_loading [DecidableEq P] (c : Codec R P) (hlt : StrictTotal c.periodLess)
    (child shiftSizes : XMLNode) (shiftType : String) (shiftTerms shiftExpiries : List P)
    (hType : XMLUtils.getChildValue child "ShiftType" true = .ok shiftType)
    (hTerms : XMLUtils.getChildrenValuesAsPeriods c child "ShiftTerms" true = .ok shiftTerms)
    (hExpiries :
      XMLUtils.getChildrenValuesAsPeriods c child "ShiftExpiries" true = .ok shiftExpiries)
    (hShifts : XMLUtils.getChildNode child "Shifts" = some shiftSizes)
    (hwf : ∀ n ∈ XMLUtils.siblingsFrom shiftSizes "Shift", WellFormedShift c n) :
    ∃ data, readSwaptionVolShiftData c child = .ok data ∧
      data.shiftType = shiftType ∧ data.shiftTerms = shiftTerms ∧
      data.shiftExpiries = shiftExpiries ∧
      data.parallelShiftSize = specParallelShift c (XMLUtils.siblingsFrom shiftSizes "Shift") ∧
      (∀ key, data.shifts.lookup key =
        specGridShift c (XMLUtils.siblingsFrom shiftSizes "Shift") key) ∧
      KeysAscending (pairLess c.periodLess) data.shifts := by
  obtain ⟨result, hr, r1, r2, r3, r4, r5, r6⟩ :=
    readSwaptionShifts_spec c hlt (XMLUtils.siblingsFrom shiftSizes "Shift")
      { shiftType := shiftType, shiftTerms := shiftTerms, shiftExpiries := shiftExpiries,
        parallelShiftSize := c.zero, shifts := [] } hwf
  refine ⟨result, ?_, r1, r2, r3, r4, ?_, r6 List.Pairwise.nil⟩
  · unfold readSwaptionVolShiftData
    rw [hType, hTerms, hExpiries, hShifts]
    exact hr
  · intro key
    rw [r5 key]
    unfold specGridShift
    cases (List.filter (fun x => decide (x.1 = key))
      (List.filterMap (gridShiftEntry c) (XMLUtils.siblingsFrom shiftSizes "Shift"))).getLast?
      <;> rfl

/-- C5 at the swaption scenario: terms `5Y,10Y`, expiries `1Y,2Y`, one bare value `0.001` and
one value `0.002` at expiry `1Y` and term `5Y`. -/
theorem swaption_cube_loading_witness :
    readSwaptionVolShiftData tokenCodec cubeNode = .ok cubeData ∧
      ∃ data, readSwaptionVolShiftData tokenCodec cubeNode = .ok data ∧
        data.shiftType = "Absolute" ∧ data.shiftTerms = ["5Y", "10Y"] ∧
        data.shiftExpiries = ["1Y", "2Y"] ∧
        data.parallelShiftSize =
          specParallelShift tokenCodec (XMLUtils.siblingsFrom cubeShifts "Shift") ∧
        (∀ key, data.shifts.lookup key =
          specGridShift tokenCodec (XMLUtils.siblingsFrom cubeShifts "Shift") key) ∧
        KeysAscending (pairLess tokenCodec.periodLess) data.shifts :=
  ⟨by decide,
    swaption_cube_loading tokenCodec stringLess_strictTotal cubeNode cubeShifts "Absolute"
      ["5Y", "10Y"] ["1Y", "2Y"] (by decide) (by decide) (by decide) rfl
      (by
        intro n hn
        have hn' : n ∈ [XMLUtils.textNode "Shift" "0.001",
            XMLNode.mk "Shift" [("expiry", "1Y"), ("term", "5Y")] "0.002" []] := hn
        simp only [List.mem_cons, List.mem_singleton, List.mem_nil_iff, or_false] at hn'
        rcases hn' with rfl | rfl
        · exact Or.inl ⟨by decide, by decide, by decide⟩
        · exact Or.inr ⟨by decide, by decide, by decide, by decide, by decide⟩)⟩

end SwaptionClaims

section LastWinsClaims

variable {R P : Type}

theorem dropWhile_not_named (name : String) :
    ∀ l : List XMLNode, (∀ x ∈ l, x.name = name) →
      l.dropWhile (fun c => !(c.name == name)) = l
  | [], _ => rfl
  | x :: xs, h => by
    have hx : x.name = name := h x (List.mem_cons_self _ _)
    simp [List.dropWhile, hx]

theorem siblingsFrom_of_all_named (n : XMLNode) (name : String)
    (h : ∀ x ∈ n.children, x.name = name) : XMLUtils.siblingsFrom n name = n.children :=
  dropWhile_not_named name n.children h

theorem lastWithKey_cons (attr : String) (x : XMLNode) (rest : List XMLNode) (k : String) :
    lastWithKey attr (x :: rest) k =
      if XMLUtils.getAttribute x attr = k then some ((lastWithKey attr rest k).getD x)
      else lastWithKey attr rest k := by
  unfold lastWithKey
  by_cases h : XMLUtils.getAttribute x attr = k
  · rw [List.filter_cons_of_pos (by simpa using h), List.getLast?_cons, if_pos h]
  · rw [List.filter_cons_of_neg (by simpa using h), if_neg h]

/-- The invariant of the loop over the shift nodes of a section, from any state of the map. -/
theorem loadShifts_lastWins {D : Type} (attr : String) (readData : XMLNode → Except LoadError D) :
    ∀ (nodes : List XMLNode) (acc m : StdMap String D),
      loadShifts attr readData nodes acc = .ok m → KeysAscending stringLess acc →
      KeysAscending stringLess m ∧
        ∀ k, m.lookup k =
          match lastWithKey attr nodes k with
          | some n => (readData n).toOption
          | none => acc.lookup k
  | [], acc, m, h, hacc => by
    unfold loadShifts at h
    cases h
    exact ⟨hacc, fun k => rfl⟩
  | x :: rest, acc, m, h, hacc => by
    unfold loadShifts at h
    cases hx : readData x with
    | error e => rw [hx] at h; cases h
    | ok dx =>
      rw [hx] at h
      obtain ⟨h1, h2⟩ := loadShifts_lastWins attr readData rest _ m h
        (keysAscending_mapInsert stringLess_strictTotal _ dx acc hacc)
      refine ⟨h1, fun k => ?_⟩
      rw [h2 k, lastWithKey_cons]
      by_cases hk : XMLUtils.getAttribute x attr = k
      · rw [if_pos hk]
        cases lastWithKey attr rest k with
        | some n => rfl
        | none =>
          dsimp only [Option.getD]
          rw [hx, ← hk]
          exact lookup_mapInsert_self stringLess_strictTotal _ dx acc
      · rw [if_neg hk]
        cases lastWithKey attr rest k with
        | some n => rfl
        | none =>
          dsimp only
          exact lookup_mapInsert_ne stringLess_strictTotal _ dx k (fun e => hk e.symm) acc

theorem loadSection_lastWins {D : Type} (testCase : XMLNode) (marketDataNames marketDataName
    attr : String) (readData : XMLNode → Except LoadError D) (m : StdMap String D)
    (h : loadSection testCase marketDataNames marketDataName attr readData = .ok m) :
    KeysAscending stringLess m ∧
      LastWins attr readData (sectionNodes testCase marketDataNames marketDataName) m := by
  rw [loadSection_eq] at h
  obtain ⟨h1, h2⟩ := loadShifts_lastWins attr readData _ [] m h List.Pairwise.nil
  refine ⟨h1, keys_nodup_of_ascending stringLess_strictTotal m h1, fun k => ?_⟩
  rw [h2 k]
  cases lastWithKey attr (sectionNodes testCase marketDataNames marketDataName) k <;> rfl

/-- C6: in the case loaded from a test-case node, each of the ten maps obeys last wins against
the shift nodes its section visits: one entry at most for a key, the entry being the data read
from the last node that carries the key (for a swaption cube the data of that node alone, as
`readSwaptionVolShiftData` reads it from a fresh cube). -/
theorem last_wins (c : Codec R P) (testCase : XMLNode) (test : StressTestData R P)
    (h : loadStressTest c testCase = .ok test) :
    LastWins "ccy" (readCurveShiftData c "discount curve")
        (sectionNodes testCase "DiscountCurves" "DiscountCurve") test.discountCurveShifts ∧
    LastWins "index" (readCurveShiftData c "index curve")
        (sectionNodes testCase "IndexCurves" "IndexCurve") test.indexCurveShifts ∧
    LastWins "name" (readCurveShiftData c "yield curve")
        (sectionNodes testCase "YieldCurves" "YieldCurve") test.yieldCurveShifts ∧
    LastWins "ccypair" (readSpotShiftData c)
        (sectionNodes testCase "FxSpots" "FxSpot") test.fxShifts ∧
    LastWins "ccypair" (readVolShiftData c)
        (sectionNodes testCase "FxVolatilities" "FxVolatility") test.fxVolShifts ∧
    LastWins "equity" (readSpotShiftData c)
        (sectionNodes testCase "EquitySpots" "EquitySpot") test.equityShifts ∧
    LastWins "equity" (readVolShiftData c)
        (sectionNodes testCase "EquityVolatilities" "EquityVolatility") test.equityVolShifts ∧
    LastWins "ccy" (readSwaptionVolShiftData c)
        (sectionNodes testCase "SwaptionVolatilities" "SwaptionVolatility")
        test.swaptionVolShifts ∧
    LastWins "ccy" (readCapFloorVolShiftData c)
        (sectionNodes testCase "CapFloorVolatilities" "CapFloorVolatility") test.capVolShifts ∧
    LastWins "security" (readSpotShiftData c)
        (sectionNodes testCase "SecuritySpreads" "SecuritySpread") test.securitySpreadShifts := by
  obtain ⟨h1, h2, h3, h4, h5, h6, h7, h8, h9, h10, _⟩ := loadStressTest_ok c testCase test h
  exact ⟨(loadSection_lastWins _ _ _ _ _ _ h1).2, (loadSection_lastWins _ _ _ _ _ _ h2).2,
    (loadSection_lastWins _ _ _ _ _ _ h3).2, (loadSection_lastWins _ _ _ _ _ _ h4).2,
    (loadSection_lastWins _ _ _ _ _ _ h5).2, (loadSection_lastWins _ _ _ _ _ _ h6).2,
    (loadSection_lastWins _ _ _ _ _ _ h7).2, (loadSection_lastWins _ _ _ _ _ _ h8).2,
    (loadSection_lastWins _ _ _ _ _ _ h9).2, (loadSection_lastWins _ _ _ _ _ _ h10).2⟩

/-- C6 at two `DiscountCurve` nodes with the same `ccy`: the map has the one entry of the second
node. -/
theorem last_wins_witness :
    loadStressTest tokenCodec duplicateCaseNode = .ok duplicateCase ∧
      LastWins "ccy" (readCurveShiftData tokenCodec "discount curve")
        (sectionNodes duplicateCaseNode "DiscountCurves" "DiscountCurve")
        duplicateCase.discountCurveShifts :=
  ⟨by decide, (last_wins tokenCodec duplicateCaseNode duplicateCase (by decide)).1⟩

/-- C7 (the claim fails): the second test case of `secondBadDoc` has a size mismatch, the load
fails, and the collection after it holds the first case. -/
theorem failed_load_keeps_first_case :
    fromXML tokenCodec secondBadDoc [] =
      (.error (.sizeMismatch "discount curve"), [parallelUpCase]) := by
  decide

/-- C7, amended: when a load fails, nothing of the prior content remains and the collection
holds the cases loaded from the test-case nodes before the offending one, in document order:
either the `StressTesting` node was not found and the collection is empty, or the visited nodes
split into nodes that loaded, whose cases are the collection, and the node that raised the
error. -/
theorem failed_load_keeps_prefix (c : Codec R P) (root : XMLNode)
    (d : List (StressTestData R P)) (e : LoadError) (h : (fromXML c root d).1 = .error e) :
    (XMLUtils.locateNode root "StressTesting" = .error e ∧ (fromXML c root d).2 = []) ∨
      ∃ pre bad post, testCaseNodes root = pre ++ bad :: post ∧
        List.Forall₂ (fun n t => loadStressTest c n = .ok t) pre (fromXML c root d).2 ∧
        loadStressTest c bad = .error e := by
  rcases fromXML_eq c root d with ⟨e', hloc, he⟩ | he
  · left
    rw [he] at h ⊢
    cases h
    exact ⟨hloc, rfl⟩
  · right
    rw [he] at h ⊢
    obtain ⟨pre, bad, post, ts, hsplit, hts, hbad, hs⟩ := loadStressTests_error c e _ [] h
    refine ⟨pre, bad, post, hsplit, ?_, hbad⟩
    rw [hs]
    simpa using hts

/-- C7, amended, at `secondBadDoc` with a prior content. -/
theorem failed_load_keeps_prefix_witness :
    (XMLUtils.locateNode secondBadDoc "StressTesting" = .error (.sizeMismatch "discount curve") ∧
        (fromXML tokenCodec secondBadDoc [duplicateCase]).2 = []) ∨
      ∃ pre bad post, testCaseNodes secondBadDoc = pre ++ bad :: post ∧
        List.Forall₂ (fun n t => loadStressTest tokenCodec n = .ok t) pre
          (fromXML tokenCodec secondBadDoc [duplicateCase]).2 ∧
        loadStressTest tokenCodec bad = .error (.sizeMismatch "discount curve") :=
  failed_load_keeps_prefix tokenCodec secondBadDoc [duplicateCase]
    (.sizeMismatch "discount curve") (by decide)

/-- C8 (the claim fails): the `StressTesting` node of `strayDoc` has one `StressTest` child, the
load succeeds, and the collection has two cases, the second with the empty label. -/
theorem stray_node_loaded_as_case :
    (fromXML tokenCodec strayDoc []).1 = .ok () ∧
      ((fromXML tokenCodec strayDoc []).2.map (fun t => t.label)) = ["parallel_up", ""] ∧
      ((strayDoc.children.filter (fun n => n.name = "StressTest")).length = 1) := by
  decide

/-- C8, amended: after a load that succeeds the collection is, whatever it held before, one case
per node the outer loop visits (the first `StressTest` node of the `StressTesting` node and every
sibling after it: the `StressTest` nodes when that node has no other child), in document order;
the case of a node is what `loadStressTest` reads from that node alone, and its label is the
`id` attribute of the node. -/
theorem load_replaces_in_order (c : Codec R P) (root : XMLNode) (d : List (StressTestData R P))
    (h : (fromXML c root d).1 = .ok ()) :
    List.Forall₂
        (fun n t => loadStressTest c n = .ok t ∧ t.label = XMLUtils.getAttribute n "id")
        (testCaseNodes root) (fromXML c root d).2 ∧
      fromXML c root d = fromXML c root [] ∧
      (∀ node, XMLUtils.locateNode root "StressTesting" = .ok node →
        (∀ n ∈ node.children, n.name = "StressTest") → testCaseNodes root = node.children) := by
  refine ⟨?_, rfl, ?_⟩
  · exact (fromXML_ok c root d h).imp
      (fun {n t} hnt => ⟨hnt, (loadStressTest_ok c n t hnt).2.2.2.2.2.2.2.2.2.2⟩)
  · intro node hnode hall
    unfold testCaseNodes
    rw [hnode]
    exact siblingsFrom_of_all_named node "StressTest" hall

/-- C8, amended, at the scenario `parallel_up` with a prior content. -/
theorem load_replaces_in_order_witness :
    List.Forall₂
        (fun n t => loadStressTest tokenCodec n = .ok t ∧
          t.label = XMLUtils.getAttribute n "id")
        (testCaseNodes parallelUpDoc) (fromXML tokenCodec parallelUpDoc [duplicateCase]).2 ∧
      fromXML tokenCodec parallelUpDoc [duplicateCase] = fromXML tokenCodec parallelUpDoc [] ∧
      (∀ node, XMLUtils.locateNode parallelUpDoc "StressTesting" = .ok node →
        (∀ n ∈ node.children, n.name = "StressTest") →
        testCaseNodes parallelUpDoc = node.children) :=
  load_replaces_in_order tokenCodec parallelUpDoc [duplicateCase] (by decide)

end LastWinsClaims

section UncheckedClaims

variable {R P : Type}

/-- C9 (the claim fails): the `SwaptionVolatility` node of `emptyAxesDoc` has empty `ShiftTerms`
and `ShiftExpiries`, and the load succeeds with a cube whose axes are empty. -/
theorem empty_axes_loaded :
    fromXML tokenCodec emptyAxesDoc [] = (.ok (), [emptyAxesCase]) := by
  decide

theorem getChildValue_not_emptySequence (n : XMLNode) (name kind : String) (mandatory : Bool) :
    XMLUtils.getChildValue n name mandatory ≠ .error (.emptySequence kind) := by
  unfold XMLUtils.getChildValue
  split
  · simp
  · split <;> simp

theorem getChildrenValuesAsPeriods_not_emptySequence (c : Codec R P) (n : XMLNode)
    (name kind : String) (mandatory : Bool) :
    XMLUtils.getChildrenValuesAsPeriods c n name mandatory ≠ .error (.emptySequence kind) := by
  unfold XMLUtils.getChildrenValuesAsPeriods
  split
  · rename_i e he
    intro h
    cases h
    exact getChildValue_not_emptySequence n name kind mandatory he
  · split <;> simp

theorem readSwaptionShift_not_emptySequence (c : Codec R P) (data : SwaptionVolShiftData R P)
    (n : XMLNode) (kind : String) :
    readSwaptionShift c data n ≠ .error (.emptySequence kind) := by
  unfold readSwaptionShift parseReal parsePeriod
  dsimp only
  split
  · cases c.parseReal (XMLUtils.getNodeValue n) <;> simp
  · split
    · simp
    · cases c.parsePeriod (XMLUtils.getAttribute n "expiry") <;>
        cases c.parsePeriod (XMLUtils.getAttribute n "term") <;>
        cases c.parseReal (XMLUtils.getNodeValue n) <;> simp

theorem readSwaptionShifts_not_emptySequence (c : Codec R P) (kind : String) :
    ∀ (nodes : List XMLNode) (data : SwaptionVolShiftData R P),
      readSwaptionShifts c nodes data ≠ .error (.emptySequence kind)
  | [], data => by simp [readSwaptionShifts]
  | n :: rest, data => by
    unfold readSwaptionShifts
    cases hn : readSwaptionShift c data n with
    | error e =>
      intro h
      cases h
      exact readSwaptionShift_not_emptySequence c data n kind hn
    | ok data1 => exact readSwaptionShifts_not_emptySequence c kind rest data1

theorem readSwaptionVolShiftData_not_emptySequence (c : Codec R P) (child : XMLNode)
    (kind : String) : readSwaptionVolShiftData c child ≠ .error (.emptySequence kind) := by
  unfold readSwaptionVolShiftData
  split
  · rename_i e he
    intro h
    cases h
    exact getChildValue_not_emptySequence child _ kind true he
  · split
    · rename_i e he
      intro h
      cases h
      exact getChildrenValuesAsPeriods_not_emptySequence c child _ kind true he
    · split
      · rename_i e he
        intro h
        cases h
        exact getChildrenValuesAsPeriods_not_emptySequence c child _ kind true he
      · split
        · simp
        · exact readSwaptionShifts_not_emptySequence c kind _ _

theorem readSwaptionShifts_axes (c : Codec R P) :
    ∀ (nodes : List XMLNode) (data : SwaptionVolShiftData R P),
      (∀ n ∈ nodes, WellFormedShift c n) →
      ∃ result, readSwaptionShifts c nodes data = .ok result ∧
        result.shiftType = data.shiftType ∧ result.shiftTerms = data.shiftTerms ∧
        result.shiftExpiries = data.shiftExpiries
  | [], data, _ => ⟨data, rfl, rfl, rfl, rfl⟩
  | n :: rest, data, hwf => by
    have hrest : ∀ x ∈ rest, WellFormedShift c x := fun x hx => hwf x (List.mem_cons_of_mem _ hx)
    rcases hwf n (List.mem_cons_self _ _) with ⟨h1, h2, hv⟩ | ⟨h1, h2, he, ht, hv⟩
    · obtain ⟨v, hv⟩ := Option.isSome_iff_exists.1 hv
      have hstep : readSwaptionShift c data n = .ok { data with parallelShiftSize := v } := by
        simp [readSwaptionShift, h1, h2, parseReal, hv]
      obtain ⟨result, hr, r1, r2, r3⟩ :=
        readSwaptionShifts_axes c rest { data with parallelShiftSize := v } hrest
      refine ⟨result, ?_, r1, r2, r3⟩
      unfold readSwaptionShifts
      rw [hstep]
      exact hr
    · obtain ⟨v, hv⟩ := Option.isSome_iff_exists.1 hv
      obtain ⟨e, he⟩ := Option.isSome_iff_exists.1 he
      obtain ⟨t, ht⟩ := Option.isSome_iff_exists.1 ht
      have hstep : readSwaptionShift c data n = .ok { data with
          shifts := mapInsert (pairLess c.periodLess) (e, t) v data.shifts } := by
        simp [readSwaptionShift, h1, h2, parseReal, parsePeriod, hv, he, ht]
      obtain ⟨result, hr, r1, r2, r3⟩ :=
        readSwaptionShifts_axes c rest { data with
          shifts := mapInsert (pairLess c.periodLess) (e, t) v data.shifts } hrest
      refine ⟨result, ?_, r1, r2, r3⟩
      unfold readSwaptionShifts
      rw [hstep]
      exact hr

/-- C9, amended: the loader requires nothing of the length of the axes of a cube: a
`SwaptionVolatility` node that is well-formed otherwise loads with the sequences its
`ShiftTerms` and `ShiftExpiries` decode to, empty or not, and no `SwaptionVolatility` node ever
raises the empty-sequence error. -/
theorem swaption_axes_unchecked (c : Codec R P) (child shiftSizes : XMLNode)
    (shiftType : String) (shiftTerms shiftExpiries : List P)
    (hType : XMLUtils.getChildValue child "ShiftType" true = .ok shiftType)
    (hTerms : XMLUtils.getChildrenValuesAsPeriods c child "ShiftTerms" true = .ok shiftTerms)
    (hExpiries :
      XMLUtils.getChildrenValuesAsPeriods c child "ShiftExpiries" true = .ok shiftExpiries)
    (hShifts : XMLUtils.getChildNode child "Shifts" = some shiftSizes)
    (hwf : ∀ n ∈ XMLUtils.siblingsFrom shiftSizes "Shift", WellFormedShift c n) :
    (∃ data, readSwaptionVolShiftData c child = .ok data ∧ data.shiftTerms = shiftTerms ∧
        data.shiftExpiries = shiftExpiries) ∧
      ∀ n kind, readSwaptionVolShiftData c n ≠ .error (.emptySequence kind) := by
  refine ⟨?_, fun n kind => readSwaptionVolShiftData_not_emptySequence c n kind⟩
  obtain ⟨result, hr, _, r2, r3⟩ :=
    readSwaptionShifts_axes c (XMLUtils.siblingsFrom shiftSizes "Shift")
      { shiftType := shiftType, shiftTerms := shiftTerms, shiftExpiries := shiftExpiries,
        parallelShiftSize := c.zero, shifts := [] } hwf
  refine ⟨result, ?_, r2, r3⟩
  unfold readSwaptionVolShiftData
  rw [hType, hTerms, hExpiries, hShifts]
  exact hr

/-- C9, amended, at a `SwaptionVolatility` node with empty axes and no shift value node. -/
theorem swaption_axes_unchecked_witness :
    (∃ data, readSwaptionVolShiftData tokenCodec
          (elem "SwaptionVolatility" [("ccy", "EUR")]
            [XMLUtils.textNode "ShiftType" "Absolute", XMLUtils.textNode "ShiftTerms" "",
             XMLUtils.textNode "ShiftExpiries" "", elem "Shifts" [] []]) = .ok data ∧
        data.shiftTerms = [] ∧ data.shiftExpiries = []) ∧
      ∀ n kind, readSwaptionVolShiftData tokenCodec n ≠ .error (.emptySequence kind) :=
  swaption_axes_unchecked tokenCodec _ (elem "Shifts" [] []) "Absolute" [] [] (by decide)
    (by decide) (by decide) rfl (fun n hn => by cases hn)

end UncheckedClaims

section SequenceClaims

variable {R P : Type}

/-- C10 (the claim fails): the `FxVolatility` node of `unevenVolDoc` has three shifts and two
expiries, and the load succeeds with a spec holding the three and the two. -/
theorem uneven_vol_loaded :
    fromXML tokenCodec unevenVolDoc [] = (.ok (), [unevenVolCase]) := by
  decide

theorem getChildValue_not_sizeMismatch (n : XMLNode) (name kind : String) (mandatory : Bool) :
    XMLUtils.getChildValue n name mandatory ≠ .error (.sizeMismatch kind) := by
  unfold XMLUtils.getChildValue
  split
  · simp
  · split <;> simp

theorem getChildValue_optional (n : XMLNode) (name : String) :
    ∃ s, XMLUtils.getChildValue n name false = .ok s := by
  unfold XMLUtils.getChildValue
  split
  · exact ⟨_, rfl⟩
  · exact ⟨"", rfl⟩

theorem readVolShiftData_not_sizeMismatch (c : Codec R P) (n : XMLNode) (kind : String) :
    readVolShiftData c n ≠ .error (.sizeMismatch kind) := by
  unfold readVolShiftData XMLUtils.getChildrenValuesAsDoublesCompact
    XMLUtils.getChildrenValuesAsPeriods
  cases h1 : XMLUtils.getChildValue n "ShiftType" false with
  | error e =>
    intro h
    cases h
    exact getChildValue_not_sizeMismatch n _ kind false h1
  | ok s =>
    cases h2 : XMLUtils.getChildValue n "Shifts" true with
    | error e =>
      intro h
      cases h
      exact getChildValue_not_sizeMismatch n _ kind true h2
    | ok s2 =>
      cases h3 : XMLUtils.getChildValue n "ShiftExpiries" true with
      | error e =>
        dsimp only
        cases c.valuesAsDoublesCompact s2
        · simp
        · intro h
          cases h
          exact getChildValue_not_sizeMismatch n _ kind true h3
      | ok s3 =>
        dsimp only
        cases c.valuesAsDoublesCompact s2 <;> cases c.valuesAsPeriods s3 <;> simp

theorem readCapFloorVolShiftData_not_sizeMismatch (c : Codec R P) (n : XMLNode)
    (kind : String) : readCapFloorVolShiftData c n ≠ .error (.sizeMismatch kind) := by
  unfold readCapFloorVolShiftData XMLUtils.getChildrenValuesAsDoublesCompact
    XMLUtils.getChildrenValuesAsPeriods
  cases h1 : XMLUtils.getChildValue n "ShiftType" true with
  | error e =>
    intro h
    cases h
    exact getChildValue_not_sizeMismatch n _ kind true h1
  | ok s =>
    cases h2 : XMLUtils.getChildValue n "ShiftExpiries" true with
    | error e =>
      intro h
      cases h
      exact getChildValue_not_sizeMismatch n _ kind true h2
    | ok s2 =>
      cases h3 : XMLUtils.getChildValue n "Shifts" true with
      | error e =>
        dsimp only
        cases c.valuesAsPeriods s2
        · simp
        · intro h
          cases h
          exact getChildValue_not_sizeMismatch n _ kind true h3
      | ok s3 =>
        dsimp only
        cases c.valuesAsPeriods s2 <;> cases c.valuesAsDoublesCompact s3 <;> simp

/-- C10, amended: the loader compares no lengths for volatility shifts: a `FxVolatility` or
`EquityVolatility` node whose `Shifts` and `ShiftExpiries` decode, and a `CapFloorVolatility`
node that has a `ShiftType` besides, loads to a spec holding the two decoded sequences as they
are, of equal length or not, and none of these nodes ever raises the size-mismatch error. -/
theorem vol_shift_sizes_unchecked (c : Codec R P) (child : XMLNode) (m : List R) (e : List P)
    (hm : XMLUtils.getChildrenValuesAsDoublesCompact c child "Shifts" true = .ok m)
    (he : XMLUtils.getChildrenValuesAsPeriods c child "ShiftExpiries" true = .ok e) :
    (∃ s, readVolShiftData c child = .ok { shiftType := s, shifts := m, shiftExpiries := e }) ∧
      (∀ s, XMLUtils.getChildValue child "ShiftType" true = .ok s →
        readCapFloorVolShiftData c child =
          .ok { shiftType := s, shifts := m, shiftExpiries := e }) ∧
      (∀ n kind, readVolShiftData c n ≠ .error (.sizeMismatch kind) ∧
        readCapFloorVolShiftData c n ≠ .error (.sizeMismatch kind)) := by
  refine ⟨?_, ?_, fun n kind => ⟨readVolShiftData_not_sizeMismatch c n kind,
    readCapFloorVolShiftData_not_sizeMismatch c n kind⟩⟩
  · obtain ⟨s, hs⟩ := getChildValue_optional child "ShiftType"
    refine ⟨s, ?_⟩
    unfold readVolShiftData
    rw [hs, hm, he]
  · intro s hs
    unfold readCapFloorVolShiftData
    rw [hs, hm, he]

/-- C10, amended, at a `FxVolatility` node with three shifts and two expiries. -/
theorem vol_shift_sizes_unchecked_witness :
    (∃ s, readVolShiftData tokenCodec unevenVolNode =
        .ok { shiftType := s, shifts := ["0.1", "0.2", "0.3"], shiftExpiries := ["1Y", "2Y"] }) ∧
      (∀ s, XMLUtils.getChildValue unevenVolNode "ShiftType" true = .ok s →
        readCapFloorVolShiftData tokenCodec unevenVolNode =
          .ok { shiftType := s, shifts := ["0.1", "0.2", "0.3"],
                shiftExpiries := ["1Y", "2Y"] }) ∧
      (∀ n kind, readVolShiftData tokenCodec n ≠ .error (.sizeMismatch kind) ∧
        readCapFloorVolShiftData tokenCodec n ≠ .error (.sizeMismatch kind)) :=
  vol_shift_sizes_unchecked tokenCodec unevenVolNode ["0.1", "0.2", "0.3"] ["1Y", "2Y"]
    (by decide) (by decide)

end SequenceClaims

section AttributeClaims

variable {R P : Type}

/-- C12 (the claim fails): the `DiscountCurve` node of `anonymousDoc` has no `ccy`, and the load
succeeds with the data of the node stored under the empty key. -/
theorem missing_key_loaded :
    fromXML tokenCodec anonymousDoc [] = (.ok (), [anonymousCase]) := by
  decide

/-- C12, amended: a shift node without its identifying attribute is not rejected for that: the
attribute reads as the empty string and the data of the node is stored under the empty key, in
the loop of any section (`loadShifts` is the loop of all ten); a section whose only node it is
loads to the map with that one entry. -/
theorem missing_key_stored_under_empty_key {D : Type} (testCase n : XMLNode)
    (marketDataNames marketDataName attr : String) (readData : XMLNode → Except LoadError D)
    (data : D) (hattr : n.attributes.lookup attr = none) (hread : readData n = .ok data) :
    XMLUtils.getAttribute n attr = "" ∧
      (∀ rest shifts, loadShifts attr readData (n :: rest) shifts =
        loadShifts attr readData rest (mapInsert stringLess "" data shifts)) ∧
      (sectionNodes testCase marketDataNames marketDataName = [n] →
        loadSection testCase marketDataNames marketDataName attr readData =
          .ok [("", data)]) := by
  have hkey : XMLUtils.getAttribute n attr = "" := by
    unfold XMLUtils.getAttribute
    rw [hattr]
    rfl
  have hstep : ∀ rest shifts, loadShifts attr readData (n :: rest) shifts =
      loadShifts attr readData rest (mapInsert stringLess "" data shifts) := by
    intro rest shifts
    rw [loadShifts, hread, hkey]
  refine ⟨hkey, hstep, fun hnodes => ?_⟩
  rw [loadSection_eq, hnodes, hstep]
  rfl

/-- C12, amended, at a `DiscountCurve` node without `ccy`. -/
theorem missing_key_stored_under_empty_key_witness :
    XMLUtils.getAttribute anonymousNode "ccy" = "" ∧
      (∀ rest shifts,
        loadShifts "ccy" (readCurveShiftData tokenCodec "discount curve") (anonymousNode :: rest)
            shifts =
          loadShifts "ccy" (readCurveShiftData tokenCodec "discount curve") rest
            (mapInsert stringLess "" parallelUpSpec shifts)) ∧
      (sectionNodes anonymousCaseNode "DiscountCurves" "DiscountCurve" = [anonymousNode] →
        loadSection anonymousCaseNode "DiscountCurves" "DiscountCurve" "ccy"
            (readCurveShiftData tokenCodec "discount curve") =
          .ok [("", parallelUpSpec)]) :=
  missing_key_stored_under_empty_key anonymousCaseNode anonymousNode "DiscountCurves"
    "DiscountCurve" "ccy" (readCurveShiftData tokenCodec "discount curve") parallelUpSpec
    (by decide) (by decide)

/-- C14 (the claim fails): the `FxSpot` node of `bogusTypeDoc` has the `ShiftType` text `Bogus`,
and the load succeeds with that text stored as the shift type. -/
theorem unrecognized_shiftType_loaded :
    fromXML tokenCodec bogusTypeDoc [] = (.ok (), [bogusTypeCase]) := by
  decide

theorem getChildValue_present (n x : XMLNode) (name : String) (mandatory : Bool)
    (h : XMLUtils.getChildNode n name = some x) :
    XMLUtils.getChildValue n name mandatory = .ok x.value := by
  unfold XMLUtils.getChildValue
  rw [h]
  rfl

theorem readSwaptionShift_ok_shiftType (c : Codec R P) (data data1 : SwaptionVolShiftData R P)
    (n : XMLNode) (h : readSwaptionShift c data n = .ok data1) :
    data1.shiftType = data.shiftType := by
  unfold readSwaptionShift at h
  dsimp only at h
  split at h
  · split at h
    · cases h
    · cases h; rfl
  · split at h
    · cases h
    · split at h
      · cases h
      · split at h
        · cases h
        · split at h
          · cases h
          · cases h; rfl

theorem readSwaptionShifts_ok_shiftType (c : Codec R P) :
    ∀ (nodes : List XMLNode) (data result : SwaptionVolShiftData R P),
      readSwaptionShifts c nodes data = .ok result → result.shiftType = data.shiftType
  | [], data, result, h => by
    unfold readSwaptionShifts at h
    cases h
    rfl
  | n :: rest, data, result, h => by
    unfold readSwaptionShifts at h
    cases hn : readSwaptionShift c data n with
    | error e => rw [hn] at h; cases h
    | ok data1 =>
      rw [hn] at h
      rw [readSwaptionShifts_ok_shiftType c rest data1 result h,
        readSwaptionShift_ok_shiftType c data data1 n hn]

/-- C14, amended: the text of `ShiftType` is not validated: whatever it is, a shift node that
loads has that text as its shift type, in every section, and the text plays no part in whether
a curve node or a spot node loads. -/
theorem shiftType_stored_verbatim (c : Codec R P) (child typeNode : XMLNode)
    (h : XMLUtils.getChildNode child "ShiftType" = some typeNode) :
    (∀ kind data, readCurveShiftData c kind child = .ok data →
        data.shiftType = typeNode.value) ∧
      (∀ data, readSpotShiftData c child = .ok data → data.shiftType = typeNode.value) ∧
      (∀ data, readVolShiftData c child = .ok data → data.shiftType = typeNode.value) ∧
      (∀ data, readSwaptionVolShiftData c child = .ok data → data.shiftType = typeNode.value) ∧
      (∀ data, readCapFloorVolShiftData c child = .ok data →
        data.shiftType = typeNode.value) ∧
      (∀ kind m t, XMLUtils.getChildrenValuesAsDoublesCompact c child "Shifts" true = .ok m →
        XMLUtils.getChildrenValuesAsPeriods c child "ShiftTenors" true = .ok t →
        m.length = t.length → 0 < m.length →
        readCurveShiftData c kind child =
          .ok { shiftType := typeNode.value, shifts := m, shiftTenors := t }) ∧
      (∀ v, XMLUtils.getChildValueAsDouble c child "ShiftSize" true = .ok v →
        readSpotShiftData c child = .ok { shiftType := typeNode.value, shiftSize := v }) := by
  have ht := getChildValue_present child typeNode "ShiftType" true h
  have hf := getChildValue_present child typeNode "ShiftType" false h
  refine ⟨?_, ?_, ?_, ?_, ?_, ?_, ?_⟩
  · intro kind data hd
    have := (readCurveShiftData_ok c kind child data hd).1
    rw [ht] at this
    injection this with this
    exact this.symm
  · intro data hd
    unfold readSpotShiftData at hd
    rw [ht] at hd
    dsimp only at hd
    split at hd
    · cases hd
    · cases hd; rfl
  · intro data hd
    unfold readVolShiftData at hd
    rw [hf] at hd
    dsimp only at hd
    split at hd
    · cases hd
    · split at hd
      · cases hd
      · cases hd; rfl
  · intro data hd
    obtain ⟨s, _, _, _, hs, _, _, _, hloop⟩ := readSwaptionVolShiftData_ok c child data hd
    rw [ht] at hs
    injection hs with hs
    rw [readSwaptionShifts_ok_shiftType c _ _ _ hloop, hs]
  · intro data hd
    unfold readCapFloorVolShiftData at hd
    rw [ht] at hd
    dsimp only at hd
    split at hd
    · cases hd
    · split at hd
      · cases hd
      · cases hd; rfl
  · intro kind m t hm htt hlen hpos
    unfold readCurveShiftData
    rw [ht, hm, htt]
    have h0 : ¬ t.length = 0 := by omega
    simp [hlen, h0]
  · intro v hv
    unfold readSpotShiftData
    rw [ht, hv]

/-- C14, amended, at a `FxSpot` node whose `ShiftType` is `Bogus`. -/
theorem shiftType_stored_verbatim_witness :
    readSpotShiftData tokenCodec bogusTypeNode =
      .ok { shiftType := "Bogus", shiftSize := "0.01" } :=
  (shiftType_stored_verbatim tokenCodec bogusTypeNode (XMLUtils.textNode "ShiftType" "Bogus")
    rfl).2.2.2.2.2.2 "0.01" (by decide)

end AttributeClaims

section SectionClaims

variable {R P : Type}

theorem dropWhile_none_named (name : String) :
    ∀ l : List XMLNode, (∀ x ∈ l, x.name ≠ name) →
      l.dropWhile (fun c => !(c.name == name)) = []
  | [], _ => rfl
  | x :: xs, h => by
    have hx : (x.name == name) = false := beq_eq_false_iff_ne.2 (h x (List.mem_cons_self _ _))
    have hxs := dropWhile_none_named name xs (fun y hy => h y (List.mem_cons_of_mem _ hy))
    simp only [List.dropWhile, hx, Bool.not_false]
    exact hxs

theorem find?_none_named (name : String) :
    ∀ l : List XMLNode, (∀ x ∈ l, x.name ≠ name) →
      l.find? (fun c => c.name == name) = none
  | [], _ => rfl
  | x :: xs, h => by
    have hx : (x.name == name) = false := beq_eq_false_iff_ne.2 (h x (List.mem_cons_self _ _))
    have hxs := find?_none_named name xs (fun y hy => h y (List.mem_cons_of_mem _ hy))
    simp only [List.find?, hx]
    exact hxs

theorem find?_skip (p : XMLNode → Bool) (x : XMLNode) (hx : p x = false) :
    ∀ pre post : List XMLNode, (pre ++ x :: post).find? p = (pre ++ post).find? p
  | [], post => by simp [List.find?, hx]
  | y :: pre, post => by
    simp only [List.cons_append, List.find?]
    cases p y with
    | true => rfl
    | false => exact find?_skip p x hx pre post

/-- A section node without shift nodes changes nothing to what any section loads, when the test
case has no other section node of its name. -/
theorem loadSection_insert_empty {D : Type} (tname tvalue : String)
    (tattrs : List (String × String)) (pre post : List XMLNode) (names name : String)
    (sattrs : List (String × String)) (svalue : String) (skids : List XMLNode)
    (hpre : ∀ n ∈ pre, n.name ≠ names) (hpost : ∀ n ∈ post, n.name ≠ names)
    (hkids : ∀ n ∈ skids, n.name ≠ name)
    (names1 name1 attr : String) (readData : XMLNode → Except LoadError D)
    (hfun : names1 = names → name1 = name) :
    loadSection (.mk tname tattrs tvalue (pre ++ .mk names sattrs svalue skids :: post))
        names1 name1 attr readData =
      loadSection (.mk tname tattrs tvalue (pre ++ post)) names1 name1 attr readData := by
  unfold loadSection XMLUtils.getChildNode
  simp only [XMLNode.children]
  by_cases hn : names1 = names
  · have hname := hfun hn
    subst hn
    subst hname
    have h1 : (pre ++ post).find? (fun c => c.name == names1) = none :=
      find?_none_named names1 _ (fun x hx => by
        rcases List.mem_append.1 hx with h | h
        · exact hpre x h
        · exact hpost x h)
    have h2 : (pre ++ XMLNode.mk names1 sattrs svalue skids :: post).find?
        (fun c => c.name == names1) = some (XMLNode.mk names1 sattrs svalue skids) := by
      rw [List.find?_append, find?_none_named names1 pre hpre]
      simp [List.find?, XMLNode.name]
    rw [h1, h2]
    simp only [XMLUtils.siblingsFrom, XMLNode.children]
    rw [dropWhile_none_named name1 skids hkids]
    rfl
  · have hx : (fun c : XMLNode => c.name == names1) (XMLNode.mk names sattrs svalue skids) =
        false := by
      simp only [XMLNode.name, beq_eq_false_iff_ne]
      exact fun e => hn e.symm
    rw [find?_skip _ _ hx pre post]

theorem sectionTable_functional (names name name1 : String)
    (h : (names, name) ∈ sectionTable) (h1 : (names, name1) ∈ sectionTable) : name1 = name := by
  simp only [sectionTable, List.mem_cons, Prod.mk.injEq, List.mem_singleton, List.mem_nil_iff,
    or_false] at h h1
  rcases h with h | h | h | h | h | h | h | h | h | h <;>
    (obtain ⟨rfl, rfl⟩ := h
     simpa using h1)

theorem loadSection_absent {D : Type} (testCase : XMLNode) (marketDataNames marketDataName
    attr : String) (readData : XMLNode → Except LoadError D) (m : StdMap String D)
    (habsent : XMLUtils.getChildNode testCase marketDataNames = none)
    (h : loadSection testCase marketDataNames marketDataName attr readData = .ok m) :
    m = [] := by
  unfold loadSection at h
  rw [habsent] at h
  cases h
  rfl

/-- C15: in the case loaded from a test-case node, the map of a section whose node is absent is
empty; and a test-case node with a section node that holds no shift node loads to exactly what
the same test-case node without that section node loads to (the node has no other section node
of that name), so that the two cannot be told apart in the model. -/
theorem absent_and_empty_sections (c : Codec R P) (tname tvalue : String)
    (tattrs : List (String × String)) (pre post : List XMLNode) (names name : String)
    (sattrs : List (String × String)) (svalue : String) (skids : List XMLNode)
    (hsec : (names, name) ∈ sectionTable)
    (hpre : ∀ n ∈ pre, n.name ≠ names) (hpost : ∀ n ∈ post, n.name ≠ names)
    (hkids : ∀ n ∈ skids, n.name ≠ name) :
    loadStressTest c (.mk tname tattrs tvalue (pre ++ .mk names sattrs svalue skids :: post)) =
        loadStressTest c (.mk tname tattrs tvalue (pre ++ post)) ∧
      ∀ testCase test, loadStressTest c testCase = .ok test →
        (XMLUtils.getChildNode testCase "DiscountCurves" = none →
          test.discountCurveShifts = []) ∧
        (XMLUtils.getChildNode testCase "IndexCurves" = none → test.indexCurveShifts = []) ∧
        (XMLUtils.getChildNode testCase "YieldCurves" = none → test.yieldCurveShifts = []) ∧
        (XMLUtils.getChildNode testCase "FxSpots" = none → test.fxShifts = []) ∧
        (XMLUtils.getChildNode testCase "FxVolatilities" = none → test.fxVolShifts = []) ∧
        (XMLUtils.getChildNode testCase "EquitySpots" = none → test.equityShifts = []) ∧
        (XMLUtils.getChildNode testCase "EquityVolatilities" = none →
          test.equityVolShifts = []) ∧
        (XMLUtils.getChildNode testCase "SwaptionVolatilities" = none →
          test.swaptionVolShifts = []) ∧
        (XMLUtils.getChildNode testCase "CapFloorVolatilities" = none →
          test.capVolShifts = []) ∧
        (XMLUtils.getChildNode testCase "SecuritySpreads" = none →
          test.securitySpreadShifts = []) := by
  constructor
  · have key : ∀ {D : Type} (names1 name1 attr : String)
        (readData : XMLNode → Except LoadError D), (names1, name1) ∈ sectionTable →
        loadSection (.mk tname tattrs tvalue (pre ++ .mk names sattrs svalue skids :: post))
            names1 name1 attr readData =
          loadSection (.mk tname tattrs tvalue (pre ++ post)) names1 name1 attr readData := by
      intro D names1 name1 attr readData h1
      refine loadSection_insert_empty tname tvalue tattrs pre post names name sattrs svalue skids
        hpre hpost hkids names1 name1 attr readData ?_
      intro e
      rw [e] at h1
      exact sectionTable_functional names name name1 hsec h1
    unfold loadStressTest
    rw [key "DiscountCurves" "DiscountCurve" _ _ (by decide),
      key "IndexCurves" "IndexCurve" _ _ (by decide),
      key "YieldCurves" "YieldCurve" _ _ (by decide),
      key "FxSpots" "FxSpot" _ _ (by decide),
      key "FxVolatilities" "FxVolatility" _ _ (by decide),
      key "EquitySpots" "EquitySpot" _ _ (by decide),
      key "EquityVolatilities" "EquityVolatility" _ _ (by decide),
      key "SwaptionVolatilities" "SwaptionVolatility" _ _ (by decide),
      key "CapFloorVolatilities" "CapFloorVolatility" _ _ (by decide),
      key "SecuritySpreads" "SecuritySpread" _ _ (by decide)]
    rfl
  · intro testCase test h
    obtain ⟨h1, h2, h3, h4, h5, h6, h7, h8, h9, h10, _⟩ := loadStressTest_ok c testCase test h
    exact ⟨fun ha => loadSection_absent _ _ _ _ _ _ ha h1,
      fun ha => loadSection_absent _ _ _ _ _ _ ha h2,
      fun ha => loadSection_absent _ _ _ _ _ _ ha h3,
      fun ha => loadSection_absent _ _ _ _ _ _ ha h4,
      fun ha => loadSection_absent _ _ _ _ _ _ ha h5,
      fun ha => loadSection_absent _ _ _ _ _ _ ha h6,
      fun ha => loadSection_absent _ _ _ _ _ _ ha h7,
      fun ha => loadSection_absent _ _ _ _ _ _ ha h8,
      fun ha => loadSection_absent _ _ _ _ _ _ ha h9,
      fun ha => loadSection_absent _ _ _ _ _ _ ha h10⟩

/-- C15 at the test case of the scenario `parallel_up`, with and without an empty `FxSpots`
section after its `DiscountCurves` section. -/
theorem absent_and_empty_sections_witness :
    loadStressTest tokenCodec
        (.mk "StressTest" [("id", "parallel_up")] ""
          ([elem "DiscountCurves" [] [parallelUpNode]] ++ .mk "FxSpots" [] "" [] :: [])) =
      loadStressTest tokenCodec
        (.mk "StressTest" [("id", "parallel_up")] ""
          ([elem "DiscountCurves" [] [parallelUpNode]] ++ [])) :=
  (absent_and_empty_sections tokenCodec "StressTest" "" [("id", "parallel_up")]
    [elem "DiscountCurves" [] [parallelUpNode]] [] "FxSpots" "FxSpot" [] "" [] (by decide)
    (by
      intro n hn
      rw [List.mem_singleton.1 hn]
      decide)
    (fun n hn => by cases hn) (fun n hn => by cases hn)).1

end SectionClaims

section DumpClaims

variable {R P : Type}

theorem lastWithKey_split (attr : String) (pre post : List XMLNode) (child : XMLNode)
    (k : String) (hkey : XMLUtils.getAttribute child attr = k)
    (hlater : ∀ n ∈ post, XMLUtils.getAttribute n attr ≠ k) :
    lastWithKey attr (pre ++ child :: post) k = some child := by
  unfold lastWithKey
  have hpost : post.filter (fun n => decide (XMLUtils.getAttribute n attr = k)) = [] := by
    rw [List.filter_eq_nil_iff]
    intro n hn
    simpa using hlater n hn
  rw [List.filter_append, List.filter_cons_of_pos (by simpa using hkey), hpost]
  simp

/-- C16: in a load that succeeds, a `DiscountCurve` node that the loop of a test case visits,
with `ccy` `k`, `ShiftType` `s`, `Shifts` decoding to `m` and `ShiftTenors` decoding to `t`, of
equal length and not empty, and with no later node of the same `ccy`, gives the case loaded from
that test case the discount curve shift `(s, m, t)` at `k`. -/
theorem curve_node_loading (c : Codec R P) (root : XMLNode) (d : List (StressTestData R P))
    (testCase child : XMLNode) (pre post : List XMLNode) (k s : String) (m : List R)
    (t : List P) (hok : (fromXML c root d).1 = .ok ())
    (htc : testCase ∈ testCaseNodes root)
    (hsplit : sectionNodes testCase "DiscountCurves" "DiscountCurve" = pre ++ child :: post)
    (hkey : XMLUtils.getAttribute child "ccy" = k)
    (hlater : ∀ n ∈ post, XMLUtils.getAttribute n "ccy" ≠ k)
    (hs : XMLUtils.getChildValue child "ShiftType" true = .ok s)
    (hm : XMLUtils.getChildrenValuesAsDoublesCompact c child "Shifts" true = .ok m)
    (ht : XMLUtils.getChildrenValuesAsPeriods c child "ShiftTenors" true = .ok t)
    (hlen : m.length = t.length) (hpos : 0 < m.length) :
    ∃ test ∈ (fromXML c root d).2, loadStressTest c testCase = .ok test ∧
      test.discountCurveShifts.lookup k =
        some { shiftType := s, shifts := m, shiftTenors := t } := by
  obtain ⟨test, hmem, htest⟩ := fromXML_ok_case c root d hok testCase htc
  refine ⟨test, hmem, htest, ?_⟩
  obtain ⟨h1, _⟩ := loadStressTest_ok c testCase test htest
  obtain ⟨_, _, hlook⟩ := loadSection_lastWins _ _ _ _ _ _ h1
  rw [hlook k, hsplit, lastWithKey_split "ccy" pre post child k hkey hlater]
  have hread : readCurveShiftData c "discount curve" child =
      .ok { shiftType := s, shifts := m, shiftTenors := t } := by
    unfold readCurveShiftData
    rw [hs, hm, ht]
    have h0 : ¬ t.length = 0 := by omega
    simp [hlen, h0]
  dsimp only
  rw [hread]
  rfl

/-- C16 at the scenario `parallel_up`: the collection has the one case, with the curve shift
`(Absolute, [0.0001], [1Y])` at `USD`. -/
theorem curve_node_loading_witness :
    fromXML tokenCodec parallelUpDoc [] = (.ok (), [parallelUpCase]) ∧
      ∃ test ∈ (fromXML tokenCodec parallelUpDoc []).2,
        loadStressTest tokenCodec parallelUpCaseNode = .ok test ∧
        test.discountCurveShifts.lookup "USD" =
          some { shiftType := "Absolute", shifts := ["0.0001"], shiftTenors := ["1Y"] } :=
  ⟨by decide,
    curve_node_loading tokenCodec parallelUpDoc [] parallelUpCaseNode parallelUpNode [] []
      "USD" "Absolute" ["0.0001"] ["1Y"] (by decide) (List.mem_singleton.2 rfl) rfl (by decide)
      (fun n hn => by cases hn) (by decide) (by decide) (by decide) (by decide) (by decide)⟩

/-- C17: the dump is a `StressTesting` node with one `StressTest` child per case, in the order
of the collection, each with the attribute `id` set to the label of its case; the children of a
`StressTest` node are the nine sections in the order `DiscountCurves`, `IndexCurves`,
`YieldCurves`, `FxSpots`, `FxVolatilities`, `EquitySpots`, `EquityVolatilities`,
`SecuritySpreads`, `CapFloorVolatilities`, and the shift nodes of a section are one per entry of
its map, in the order of the map, which is the ascending order of the keys, each with the key
of its entry as its one attribute. -/
theorem dump_order (c : Codec R P) (data_ : List (StressTestData R P)) :
    (toXML c data_).name = "StressTesting" ∧
      (toXML c data_).children = data_.map (stressTestToXML c) ∧
      ∀ test : StressTestData R P,
        (stressTestToXML c test).name = "StressTest" ∧
        (stressTestToXML c test).attributes = [("id", test.label)] ∧
        (stressTestToXML c test).children.map
            (fun s => (s.name, s.children.map (fun n => (n.name, n.attributes)))) =
          [("DiscountCurves",
              test.discountCurveShifts.map (fun e => ("DiscountCurve", [("ccy", e.1)]))),
           ("IndexCurves", test.indexCurveShifts.map (fun e => ("IndexCurve", [("ccy", e.1)]))),
           ("YieldCurves", test.yieldCurveShifts.map (fun e => ("YieldCurve", [("name", e.1)]))),
           ("FxSpots", test.fxShifts.map (fun e => ("FxSpot", [("ccypair", e.1)]))),
           ("FxVolatilities",
              test.fxVolShifts.map (fun e => ("FxVolatility", [("ccypair", e.1)]))),
           ("EquitySpots", test.equityShifts.map (fun e => ("EquitySpot", [("equity", e.1)]))),
           ("EquityVolatilities",
              test.equityVolShifts.map (fun e => ("EquityVolatility", [("equity", e.1)]))),
           ("SecuritySpreads",
              test.securitySpreadShifts.map (fun e => ("SecuritySpread", [("security", e.1)]))),
           ("CapFloorVolatilities",
              test.capVolShifts.map (fun e => ("CapFloorVolatility", [("ccy", e.1)])))] := by
  refine ⟨rfl, rfl, fun test => ⟨rfl, rfl, ?_⟩⟩
  simp [stressTestToXML, dataToXMLCurve, dataToXMLVol, dataToXMLSpot, XMLUtils.addChild,
    XMLUtils.addAttribute, XMLNode.children, XMLNode.name, XMLNode.attributes, List.map_map,
    Function.comp_def]

/-- C18 (the code at a failing input): the `IndexCurve` node written for the index curve shift
of `indexCase` has the attribute `ccy`, none called `index`, so that the loader reads the empty
string as its key; the collection loaded from the dump has the shift under the empty key. -/
theorem dumped_index_curve_attribute :
    ((stressTestToXML tokenCodec indexCase).children.map
        (fun s => (s.name, s.children.map
          (fun n => (n.name, n.attributes, XMLUtils.getAttribute n "index"))))).lookup
        "IndexCurves" =
      some [("IndexCurve", [("ccy", "EUR-EURIBOR-6M")], "")] ∧
    (fromXML tokenCodec (toXML tokenCodec [indexCase]) []).2.map
        (fun t => t.indexCurveShifts.map Prod.fst) = [[""]] := by
  decide

/-- C19 (the code at a failing input): the `StressTest` node written for `swaptionCase`, which
has a swaption volatility shift, has the nine sections of the other maps and neither a
`SwaptionVolatilities` nor a `SwaptionVolatility` node; the collection loaded from the dump has
no swaption volatility shift. -/
theorem dumped_swaption_cube_missing :
    (stressTestToXML tokenCodec swaptionCase).children.map (fun s => (s.name, s.children.length))
        = [("DiscountCurves", 0), ("IndexCurves", 0), ("YieldCurves", 0), ("FxSpots", 0),
           ("FxVolatilities", 0), ("EquitySpots", 0), ("EquityVolatilities", 0),
           ("SecuritySpreads", 0), ("CapFloorVolatilities", 0)] ∧
      (XMLUtils.getChildNode (stressTestToXML tokenCodec swaptionCase)
        "SwaptionVolatilities").isSome = false ∧
      (fromXML tokenCodec (toXML tokenCodec [swaptionCase]) []).2.map
        (fun t => t.swaptionVolShifts) = [[]] := by
  decide

end DumpClaims

section RoundTripClaims

variable {R P : Type}

theorem loadShifts_map {D : Type} (attr : String) (readData : XMLNode → Except LoadError D)
    (mk : String × D → XMLNode) :
    ∀ (m acc : StdMap String D),
      (∀ e ∈ m, XMLUtils.getAttribute (mk e) attr = e.1 ∧ readData (mk e) = .ok e.2) →
      loadShifts attr readData (m.map mk) acc =
        .ok (m.foldl (fun a e => mapInsert stringLess e.1 e.2 a) acc)
  | [], acc, _ => rfl
  | e :: m, acc, h => by
    obtain ⟨h1, h2⟩ := h e (List.mem_cons_self _ _)
    rw [List.map_cons, loadShifts, h2, h1, List.foldl_cons]
    exact loadShifts_map attr readData mk m _ (fun x hx => h x (List.mem_cons_of_mem _ hx))

theorem loadSection_dumped {D : Type} (testNode : XMLNode) (names name attr : String)
    (readData : XMLNode → Except LoadError D) (mk : String × D → XMLNode) (m : StdMap String D)
    (hfind : XMLUtils.getChildNode testNode names = some (.mk names [] "" (m.map mk)))
    (hname : ∀ e, (mk e).name = name)
    (hmk : ∀ e ∈ m, XMLUtils.getAttribute (mk e) attr = e.1 ∧ readData (mk e) = .ok e.2)
    (hasc : KeysAscending stringLess m) :
    loadSection testNode names name attr readData = .ok m := by
  unfold loadSection
  rw [hfind]
  dsimp only
  rw [siblingsFrom_of_all_named _ name (by
    intro x hx
    obtain ⟨e, _, rfl⟩ := List.mem_map.1 hx
    exact hname e)]
  show loadShifts attr readData (m.map mk) [] = .ok m
  rw [loadShifts_map attr readData mk m [] hmk,
    foldl_mapInsert_of_ascending stringLess_strictTotal m [] (by simpa using hasc)]
  rfl

theorem readCurveShiftData_dumped (c : Codec R P) (kind name attr k : String)
    (x : CurveShiftData R P) (hx : x.Dumpable c) :
    readCurveShiftData c kind
        (.mk name [(attr, k)] ""
          [XMLUtils.textNode "ShiftType" x.shiftType,
           XMLUtils.textNode "Shifts" (c.realsText x.shifts),
           XMLUtils.textNode "ShiftTenors" (c.periodsText x.shiftTenors)]) = .ok x := by
  obtain ⟨h1, h2, h3, h4⟩ := hx
  have h0 : ¬ x.shiftTenors.length = 0 := by omega
  simp [readCurveShiftData, XMLUtils.getChildValue, XMLUtils.getChildNode,
    XMLUtils.getChildrenValuesAsDoublesCompact, XMLUtils.getChildrenValuesAsPeriods,
    XMLUtils.getNodeValue, XMLUtils.textNode, XMLNode.children, XMLNode.name, XMLNode.value,
    List.find?, h1, h2, h3, h0]

theorem readVolShiftData_dumped (c : Codec R P) (name attr k : String)
    (x : VolShiftData R P) (hx : x.Dumpable c) :
    readVolShiftData c
        (.mk name [(attr, k)] ""
          [XMLUtils.textNode "ShiftType" x.shiftType,
           XMLUtils.textNode "Shifts" (c.realsText x.shifts),
           XMLUtils.textNode "ShiftExpiries" (c.periodsText x.shiftExpiries)]) = .ok x := by
  obtain ⟨h1, h2⟩ := hx
  simp [readVolShiftData, XMLUtils.getChildValue, XMLUtils.getChildNode,
    XMLUtils.getChildrenValuesAsDoublesCompact, XMLUtils.getChildrenValuesAsPeriods,
    XMLUtils.getNodeValue, XMLUtils.textNode, XMLNode.children, XMLNode.name, XMLNode.value,
    List.find?, h1, h2]

theorem readCapFloorVolShiftData_dumped (c : Codec R P) (name attr k : String)
    (x : VolShiftData R P) (hx : x.Dumpable c) :
    readCapFloorVolShiftData c
        (.mk name [(attr, k)] ""
          [XMLUtils.textNode "ShiftType" x.shiftType,
           XMLUtils.textNode "Shifts" (c.realsText x.shifts),
           XMLUtils.textNode "ShiftExpiries" (c.periodsText x.shiftExpiries)]) = .ok x := by
  obtain ⟨h1, h2⟩ := hx
  simp [readCapFloorVolShiftData, XMLUtils.getChildValue, XMLUtils.getChildNode,
    XMLUtils.getChildrenValuesAsDoublesCompact, XMLUtils.getChildrenValuesAsPeriods,
    XMLUtils.getNodeValue, XMLUtils.textNode, XMLNode.children, XMLNode.name, XMLNode.value,
    List.find?, h1, h2]

theorem readSpotShiftData_dumped (c : Codec R P) (name attr k : String)
    (x : SpotShiftData R) (hx : x.Dumpable c) :
    readSpotShiftData c
        (.mk name [(attr, k)] ""
          [XMLUtils.textNode "ShiftType" x.shiftType,
           XMLUtils.textNode "ShiftSize" (c.realText x.shiftSize)]) = .ok x := by
  have h1 : c.valueAsDouble (c.realText x.shiftSize) = some x.shiftSize := hx
  simp [readSpotShiftData, XMLUtils.getChildValue, XMLUtils.getChildNode,
    XMLUtils.getChildValueAsDouble, XMLUtils.getNodeValue, XMLUtils.textNode, XMLNode.children,
    XMLNode.name, XMLNode.value, List.find?, h1]

theorem getAttribute_single (name attr k value : String) (children : List XMLNode) :
    XMLUtils.getAttribute (.mk name [(attr, k)] value children) attr = k := by
  simp [XMLUtils.getAttribute, XMLNode.attributes, List.lookup]

end RoundTripClaims

section RoundTripTheorem

variable {R P : Type}

/-- The case written by the writer loads back to itself. -/
theorem loadStressTest_dumped (c : Codec R P) (t : StressTestData R P)
    (h : RestrictedCase c t) : loadStressTest c (stressTestToXML c t) = .ok t := by
  obtain ⟨hindex, hswaption, ⟨a1, b1⟩, ⟨a3, b3⟩, ⟨a4, b4⟩, ⟨a5, b5⟩, ⟨a6, b6⟩, ⟨a7, b7⟩,
    ⟨a9, b9⟩, ⟨a10, b10⟩⟩ := h
  refine loadStressTest_of_sections c _ t ?_ ?_ ?_ ?_ ?_ ?_ ?_ ?_ ?_ ?_ ?_
  · exact loadSection_dumped _ _ "DiscountCurve" _ _ _ t.discountCurveShifts rfl (fun _ => rfl)
      (fun e he => ⟨getAttribute_single _ _ _ _ _,
        readCurveShiftData_dumped c _ _ _ _ e.2 (b1 e he)⟩) a1
  · refine loadSection_dumped _ _ "IndexCurve" _ _
      (fun entry : String × CurveShiftData R P => .mk "IndexCurve" [("ccy", entry.1)] ""
        [XMLUtils.textNode "ShiftType" entry.2.shiftType,
         XMLUtils.textNode "Shifts" (c.realsText entry.2.shifts),
         XMLUtils.textNode "ShiftTenors" (c.periodsText entry.2.shiftTenors)])
      t.indexCurveShifts rfl (fun _ => rfl) ?_ ?_
    · rw [hindex]
      intro e he
      cases he
    · rw [hindex]
      exact List.Pairwise.nil
  · exact loadSection_dumped _ _ "YieldCurve" _ _ _ t.yieldCurveShifts rfl (fun _ => rfl)
      (fun e he => ⟨getAttribute_single _ _ _ _ _,
        readCurveShiftData_dumped c _ _ _ _ e.2 (b3 e he)⟩) a3
  · exact loadSection_dumped _ _ "FxSpot" _ _ _ t.fxShifts rfl (fun _ => rfl)
      (fun e he => ⟨getAttribute_single _ _ _ _ _,
        readSpotShiftData_dumped c _ _ _ e.2 (b4 e he)⟩) a4
  · exact loadSection_dumped _ _ "FxVolatility" _ _ _ t.fxVolShifts rfl (fun _ => rfl)
      (fun e he => ⟨getAttribute_single _ _ _ _ _,
        readVolShiftData_dumped c _ _ _ e.2 (b5 e he)⟩) a5
  · exact loadSection_dumped _ _ "EquitySpot" _ _ _ t.equityShifts rfl (fun _ => rfl)
      (fun e he => ⟨getAttribute_single _ _ _ _ _,
        readSpotShiftData_dumped c _ _ _ e.2 (b6 e he)⟩) a6
  · exact loadSection_dumped _ _ "EquityVolatility" _ _ _ t.equityVolShifts rfl (fun _ => rfl)
      (fun e he => ⟨getAttribute_single _ _ _ _ _,
        readVolShiftData_dumped c _ _ _ e.2 (b7 e he)⟩) a7
  · rw [hswaption]
    rfl
  · exact loadSection_dumped _ _ "CapFloorVolatility" _ _ _ t.capVolShifts rfl (fun _ => rfl)
      (fun e he => ⟨getAttribute_single _ _ _ _ _,
        readCapFloorVolShiftData_dumped c _ _ _ e.2 (b9 e he)⟩) a9
  · exact loadSection_dumped _ _ "SecuritySpread" _ _ _ t.securitySpreadShifts rfl
      (fun _ => rfl)
      (fun e he => ⟨getAttribute_single _ _ _ _ _,
        readSpotShiftData_dumped c _ _ _ e.2 (b10 e he)⟩) a10
  · rfl

theorem forall₂_map_dumped (c : Codec R P) :
    ∀ data_ : List (StressTestData R P), (∀ t ∈ data_, RestrictedCase c t) →
      List.Forall₂ (fun n t => loadStressTest c n = .ok t) (data_.map (stressTestToXML c)) data_
  | [], _ => List.Forall₂.nil
  | t :: rest, h =>
    List.Forall₂.cons (loadStressTest_dumped c t (h t (List.mem_cons_self _ _)))
      (forall₂_map_dumped c rest (fun x hx => h x (List.mem_cons_of_mem _ hx)))

/-- C20: a collection in which every case has no index curve shift and no swaption volatility
shift, every curve shift has as many shifts as tenors and at least one, every map is a
`std::map` (its keys ascend) and every number, sequence of numbers and sequence of periods
decodes from the text the writer gives it, is what the load of its dump gives, whatever the
collection held before: the load succeeds and the collection after it is the one dumped.
Volatility shifts may have empty or unequally long sequences and an empty shift type. -/
theorem restricted_round_trip (c : Codec R P) (data_ d : List (StressTestData R P))
    (h : ∀ t ∈ data_, RestrictedCase c t) :
    fromXML c (toXML c data_) d = (.ok (), data_) := by
  have hnodes : XMLUtils.siblingsFrom (toXML c data_) "StressTest" =
      data_.map (stressTestToXML c) :=
    siblingsFrom_of_all_named (toXML c data_) "StressTest" (by
      intro x hx
      obtain ⟨t, _, rfl⟩ := List.mem_map.1 hx
      rfl)
  have hloc : XMLUtils.locateNode (toXML c data_) "StressTesting" = .ok (toXML c data_) := rfl
  have hchk : XMLUtils.checkNode (toXML c data_) "StressTesting" = .ok () := rfl
  unfold fromXML
  rw [hloc]
  dsimp only
  rw [hchk]
  dsimp only
  rw [hnodes, loadStressTests_of_forall₂ c _ data_ [] (forall₂_map_dumped c data_ h)]
  rfl

/-- C20 at a collection with a case of discount curve, spot and volatility shifts, the
volatility shifts with an empty shift type, unequally long sequences and empty sequences. -/
theorem restricted_round_trip_witness :
    fromXML tokenCodec (toXML tokenCodec [restrictedCase, parallelUpCase]) [duplicateCase] =
      (.ok (), [restrictedCase, parallelUpCase]) :=
  restricted_round_trip tokenCodec [restrictedCase, parallelUpCase] [duplicateCase] (by
    intro t ht
    simp only [List.mem_cons, List.mem_singleton, List.mem_nil_iff, or_false] at ht
    rcases ht with rfl | rfl <;> decide)

end RoundTripTheorem

section FixedSectionsClaim

variable {R P : Type}

/-- C21: whatever a case holds, the `StressTest` node written for it has exactly nine children,
the sections `DiscountCurves`, `IndexCurves`, `YieldCurves`, `FxSpots`, `FxVolatilities`,
`EquitySpots`, `EquityVolatilities`, `SecuritySpreads` and `CapFloorVolatilities`, each without
attributes and with as many children as its map has entries, so that the section of an empty
map is a node without children; no child is called `SwaptionVolatilities`, whatever the
swaption volatility map holds; and every child of the dump is such a `StressTest` node. -/
theorem dump_fixed_sections (c : Codec R P) (data_ : List (StressTestData R P))
    (test : StressTestData R P) :
    (stressTestToXML c test).children.map
        (fun s => (s.name, s.attributes, s.children.length)) =
      [("DiscountCurves", [], test.discountCurveShifts.length),
       ("IndexCurves", [], test.indexCurveShifts.length),
       ("YieldCurves", [], test.yieldCurveShifts.length),
       ("FxSpots", [], test.fxShifts.length),
       ("FxVolatilities", [], test.fxVolShifts.length),
       ("EquitySpots", [], test.equityShifts.length),
       ("EquityVolatilities", [], test.equityVolShifts.length),
       ("SecuritySpreads", [], test.securitySpreadShifts.length),
       ("CapFloorVolatilities", [], test.capVolShifts.length)] ∧
      (stressTestToXML c test).children.length = 9 ∧
      (XMLUtils.getChildNode (stressTestToXML c test) "SwaptionVolatilities").isSome = false ∧
      (stressTestToXML c test).children.all (fun s => s.name != "SwaptionVolatilities") = true ∧
      (toXML c data_).children = data_.map (stressTestToXML c) := by
  refine ⟨?_, rfl, rfl, rfl, rfl⟩
  simp [stressTestToXML, dataToXMLCurve, dataToXMLVol, dataToXMLSpot, XMLUtils.addChild,
    XMLUtils.addAttribute, XMLNode.children, XMLNode.name, XMLNode.attributes]

end FixedSectionsClaim

end StressScenario
